import Mathlib

/-!
Verification of the UML model support functions in gaphor/UML/recipes.py.

The development gives a shallow embedding of the recipe functions and of the
slices of model state they manipulate.  The logic of every embedded function
is translated from gaphor/UML/recipes.py.  The element infrastructure the
recipes call into (metaclass hierarchy, element creation, unlink, collection
semantics) lives outside the excerpt, so those parts are modelled from the
specification, as flagged in the corresponding doc comments.
-/

set_option linter.unusedVariables false

/-- Modelled from the spec: the concrete element metaclasses used by the
recipes, standing in for the class hierarchy declared in gaphor/UML/uml.py
(which is outside the excerpt).  Each constructor is one concrete kind an
operand element can have. -/
inductive EKind where
  | kClass
  | kInterface
  | kComponent
  | kDataType
  | kArtifact
  | kStereotype
  | kPort
  | kProperty
  | kConnectorEnd
  | kPackage
deriving DecidableEq

/-- Modelled from the spec: isinstance(x, Interface). -/
def isInterface : EKind → Bool
  | .kInterface => true
  | _ => false

/-- Modelled from the spec: isinstance(x, Component). -/
def isComponent : EKind → Bool
  | .kComponent => true
  | _ => false

/-- Modelled from the spec: isinstance(x, Classifier).  Class, Interface,
Component, DataType, Artifact and Stereotype are Classifiers; Port and
Property are structural features, ConnectorEnd is a multiplicity element and
Package is a namespace, none of them Classifiers. -/
def isClassifier : EKind → Bool
  | .kClass | .kInterface | .kComponent | .kDataType | .kArtifact | .kStereotype => true
  | _ => false

/-- Modelled from the spec: isinstance(x, Port). -/
def isPort : EKind → Bool
  | .kPort => true
  | _ => false

/-- Modelled from the spec: isinstance(x, Property).  Port specializes
Property in the UML metamodel. -/
def isProperty : EKind → Bool
  | .kProperty | .kPort => true
  | _ => false

/-- Modelled from the spec: isinstance(x, TYPES_WITH_OWNED_ATTRIBUTE), the
tuple (Artifact, Class, DataType, Interface, StructuredClassifier) of
recipes.py line 312.  Class (hence Component and Stereotype) specializes
StructuredClassifier. -/
def hasOwnedAttribute : EKind → Bool
  | .kClass | .kInterface | .kComponent | .kDataType | .kArtifact | .kStereotype => true
  | _ => false

/-- The three dependency kinds the policy function can return. -/
inductive DepKind where
  | dependency
  | usage
  | realization
deriving DecidableEq

/-- Embeds dependency_type (recipes.py lines 385-408): Usage when the
supplier is an Interface (tested first), Realization when the supplier is a
Component and the client a Classifier that is not a Component, plain
Dependency otherwise. -/
def dependency_type (client supplier : EKind) : DepKind :=
  if isInterface supplier then .usage
  else if isComponent supplier && isClassifier client && !isComponent client then .realization
  else .dependency

/-- Claim C7: dependency_type returns Usage exactly when the supplier is an
Interface (this test takes precedence); it returns Realization exactly when
the supplier is a Component (not an Interface) and the client is a Classifier
that is not itself a Component; in every other case, in particular for a
component-to-component pair, it returns plain Dependency. -/
theorem C7_dependency_type_policy :
    (∀ client supplier : EKind,
      (dependency_type client supplier = .usage ↔ isInterface supplier = true) ∧
      (dependency_type client supplier = .realization ↔
        (isInterface supplier = false ∧ isComponent supplier = true ∧
         isClassifier client = true ∧ isComponent client = false)) ∧
      (dependency_type client supplier = .dependency ↔
        (isInterface supplier = false ∧
         ¬(isComponent supplier = true ∧ isClassifier client = true ∧
           isComponent client = false)))) ∧
    dependency_type .kComponent .kComponent = .dependency := by
  refine ⟨fun client supplier => ?_, by decide⟩
  cases client <;> cases supplier <;> exact ⟨by decide, by decide, by decide⟩

/-- The membership state of one association end: which of the three holding
collections of set_navigability currently contain it.  The collections are
modelled from the spec as duplicate-free lists of element identifiers:
ownedAttribute is the own-attribute collection of the classifier at the
opposite end, ownedEnd and navigableOwnedEnd belong to the association. -/
structure NavState where
  ownedAttribute : List Nat
  ownedEnd : List Nat
  navigableOwnedEnd : List Nat
deriving DecidableEq

/-- Embeds set_navigability (recipes.py lines 321-382) for an association
end e whose opposite end has a type of kind owner.  The end is first removed
from all three holding collections (ownedAttribute only when the owner kind
supports owned attributes), then re-inserted according to nav: some true into
ownedAttribute when supported, else into navigableOwnedEnd; none into
ownedEnd; some false nowhere.  Collection remove is List.erase (remove the
first occurrence, no-op when absent), matching the membership-guarded
removals of the source. -/
def set_navigability (owner : EKind) (e : Nat) (nav : Option Bool) (s : NavState) : NavState :=
  let oa := if hasOwnedAttribute owner then s.ownedAttribute.erase e else s.ownedAttribute
  let oe := s.ownedEnd.erase e
  let noe := s.navigableOwnedEnd.erase e
  match nav with
  | some true =>
    if hasOwnedAttribute owner then
      { ownedAttribute := oa ++ [e], ownedEnd := oe, navigableOwnedEnd := noe }
    else
      { ownedAttribute := oa, ownedEnd := oe, navigableOwnedEnd := noe ++ [e] }
  | none => { ownedAttribute := oa, ownedEnd := oe ++ [e], navigableOwnedEnd := noe }
  | some false => { ownedAttribute := oa, ownedEnd := oe, navigableOwnedEnd := noe }

/-- The observable membership state of end e after navigability bookkeeping. -/
def membTriple (e : Nat) (s : NavState) : Bool × Bool × Bool :=
  (s.ownedAttribute.contains e, s.ownedEnd.contains e, s.navigableOwnedEnd.contains e)

theorem count_le_one_not_mem_erase {e : Nat} {l : List Nat} (h : l.count e ≤ 1) :
    e ∉ l.erase e := by
  rw [← List.count_eq_zero, List.count_erase_self]
  omega

theorem erase_erase_of_count_le_one {e : Nat} {l : List Nat} (h : l.count e ≤ 1) :
    (l.erase e).erase e = l.erase e :=
  List.erase_of_not_mem (count_le_one_not_mem_erase h)

theorem erase_snoc_self {α : Type} [DecidableEq α] {e : α} {l : List α} (h : e ∉ l) :
    (l ++ [e]).erase e = l := by
  rw [List.erase_append_right _ h]
  simp

/-- Claim C1: starting from any duplicate-free state whose opposite-end type
is a Class, set_navigability with nav = true leaves the end in the class
ownedAttribute collection and absent from ownedEnd and navigableOwnedEnd; a
subsequent call with nav = none puts the end into ownedEnd and removes it
from the class ownedAttribute collection. -/
theorem C1_set_navigability_class_true_then_none (e : Nat) (s : NavState)
    (h1 : s.ownedAttribute.count e ≤ 1) (h2 : s.ownedEnd.count e ≤ 1)
    (h3 : s.navigableOwnedEnd.count e ≤ 1) :
    (e ∈ (set_navigability .kClass e (some true) s).ownedAttribute ∧
     e ∉ (set_navigability .kClass e (some true) s).ownedEnd ∧
     e ∉ (set_navigability .kClass e (some true) s).navigableOwnedEnd) ∧
    (e ∈ (set_navigability .kClass e none (set_navigability .kClass e (some true) s)).ownedEnd ∧
     e ∉ (set_navigability .kClass e none
        (set_navigability .kClass e (some true) s)).ownedAttribute) := by
  simp only [set_navigability, hasOwnedAttribute, if_pos]
  refine ⟨⟨?_, ?_, ?_⟩, ?_, ?_⟩
  · simp
  · exact count_le_one_not_mem_erase h2
  · exact count_le_one_not_mem_erase h3
  · simp
  · rw [erase_snoc_self (count_le_one_not_mem_erase h1)]
    exact count_le_one_not_mem_erase h1

/-- Witness for C1 at a concrete state. -/
theorem C1_set_navigability_class_true_then_none_witness :
    ([7, 3].count 3 ≤ 1 ∧ [3].count 3 ≤ 1 ∧ List.count 3 [] ≤ 1) ∧
    (3 ∈ (set_navigability .kClass 3 (some true) ⟨[7, 3], [3], []⟩).ownedAttribute ∧
     3 ∉ (set_navigability .kClass 3 (some true) ⟨[7, 3], [3], []⟩).ownedEnd ∧
     3 ∉ (set_navigability .kClass 3 (some true) ⟨[7, 3], [3], []⟩).navigableOwnedEnd) ∧
    (3 ∈ (set_navigability .kClass 3 none
        (set_navigability .kClass 3 (some true) ⟨[7, 3], [3], []⟩)).ownedEnd ∧
     3 ∉ (set_navigability .kClass 3 none
        (set_navigability .kClass 3 (some true) ⟨[7, 3], [3], []⟩)).ownedAttribute) := by
  have h := C1_set_navigability_class_true_then_none 3 ⟨[7, 3], [3], []⟩
    (by decide) (by decide) (by decide)
  exact ⟨⟨by decide, by decide, by decide⟩, h.1, h.2⟩

theorem set_navigability_idem (owner : EKind) (e : Nat) (nav : Option Bool) (s : NavState)
    (h1 : s.ownedAttribute.count e ≤ 1) (h2 : s.ownedEnd.count e ≤ 1)
    (h3 : s.navigableOwnedEnd.count e ≤ 1) :
    set_navigability owner e nav (set_navigability owner e nav s) =
      set_navigability owner e nav s := by
  have k1 := erase_erase_of_count_le_one h1
  have k2 := erase_erase_of_count_le_one h2
  have k3 := erase_erase_of_count_le_one h3
  have m1 := erase_snoc_self (count_le_one_not_mem_erase h1)
  have m2 := erase_snoc_self (count_le_one_not_mem_erase h2)
  have m3 := erase_snoc_self (count_le_one_not_mem_erase h3)
  rcases nav with _ | b
  · cases owner <;>
      simp only [set_navigability, hasOwnedAttribute, if_true, if_false, Bool.false_eq_true,
        NavState.mk.injEq, m2, k1, k2, k3, and_self, and_true, true_and]
  · cases b <;> cases owner <;>
      simp only [set_navigability, hasOwnedAttribute, if_true, if_false, Bool.false_eq_true,
        NavState.mk.injEq] <;>
      simp [m1, m2, m3, k1, k2, k3]

/-- Claim C2: for every owner kind of the opposite end and every nav value in
{true, false, unspecified}, applying set_navigability twice with the same nav
yields exactly the same membership state of the end in ownedAttribute,
ownedEnd and navigableOwnedEnd as applying it once, starting from any
duplicate-free state. -/
theorem C2_set_navigability_idempotent (owner : EKind) (e : Nat) (nav : Option Bool)
    (s : NavState)
    (h1 : s.ownedAttribute.count e ≤ 1) (h2 : s.ownedEnd.count e ≤ 1)
    (h3 : s.navigableOwnedEnd.count e ≤ 1) :
    membTriple e (set_navigability owner e nav (set_navigability owner e nav s)) =
      membTriple e (set_navigability owner e nav s) := by
  rw [set_navigability_idem owner e nav s h1 h2 h3]

/-- Witness for C2 at a concrete state. -/
theorem C2_set_navigability_idempotent_witness :
    ([4].count 4 ≤ 1 ∧ List.count 4 [] ≤ 1 ∧ [5].count 4 ≤ 1) ∧
    membTriple 4 (set_navigability .kPackage 4 (some true)
        (set_navigability .kPackage 4 (some true) ⟨[4], [], [5]⟩)) =
      membTriple 4 (set_navigability .kPackage 4 (some true) ⟨[4], [], [5]⟩) :=
  ⟨⟨by decide, by decide, by decide⟩,
   C2_set_navigability_idempotent .kPackage 4 (some true) ⟨[4], [], [5]⟩
     (by decide) (by decide) (by decide)⟩

/-- An operand element of a relationship constructor: its owning model
instance (identified by a number, comparison models the Python identity test
on model objects) and its concrete metaclass. -/
structure KElem where
  model : Nat
  kind : EKind
deriving DecidableEq

/-- Embeds create_dependency (recipes.py lines 232-240) over a creation
counter standing for the element pool of the model.  The same-model assert
comes first; when it fails the function raises (first component true) with
the pool untouched, otherwise one Dependency element is created. -/
def create_dependency (supplier client : KElem) (pool : Nat) : Bool × Nat :=
  if supplier.model ≠ client.model then (true, pool) else (false, pool + 1)

/-- Embeds create_realization (recipes.py lines 243-251). -/
def create_realization (realizingClassifier abstraction : KElem) (pool : Nat) : Bool × Nat :=
  if realizingClassifier.model ≠ abstraction.model then (true, pool) else (false, pool + 1)

/-- Embeds create_generalization (recipes.py lines 254-262). -/
def create_generalization (general specific : KElem) (pool : Nat) : Bool × Nat :=
  if general.model ≠ specific.model then (true, pool) else (false, pool + 1)

/-- Embeds create_association (recipes.py lines 265-279): assert first, then
an Association and two Property ends are created (the navigability wiring on
the new ends is embedded separately as set_navigability). -/
def create_association (type_a type_b : KElem) (pool : Nat) : Bool × Nat :=
  if type_a.model ≠ type_b.model then (true, pool) else (false, pool + 3)

/-- Embeds create_extension (recipes.py lines 167-188): assert first, then an
Extension, a Property and an ExtensionEnd are created. -/
def create_extension (metaclass stereotype : KElem) (pool : Nat) : Bool × Nat :=
  if metaclass.model ≠ stereotype.model then (true, pool) else (false, pool + 3)

/-- Embeds add_slot (recipes.py lines 199-210): assert first, then one Slot
element is created. -/
def add_slot (inst definingFeature : KElem) (pool : Nat) : Bool × Nat :=
  if inst.model ≠ definingFeature.model then (true, pool) else (false, pool + 1)

/-- Embeds create_connector (recipes.py lines 282-309).  After the same-model
assert, a Connector and two ConnectorEnd elements are created, the roles are
assigned, and the connector kind is computed by the isinstance tests of lines
302-304.  Those tests are applied to end_a and end_b, the two elements just
created with model.create(ConnectorEnd), so their operand kind is
EKind.kConnectorEnd, not the kind of the role elements type_a and type_b.
The result carries (raised, pool, kind of the new connector). -/
def create_connector (type_a type_b : KElem) (pool : Nat) : Bool × Nat × Option String :=
  if type_a.model ≠ type_b.model then (true, pool, none)
  else
    let end_a_kind := EKind.kConnectorEnd
    let end_b_kind := EKind.kConnectorEnd
    let kind :=
      if (isPort end_a_kind && isProperty end_b_kind)
          || (isProperty end_a_kind && isPort end_b_kind) then "delegation"
      else "assembly"
    (false, pool + 3, some kind)

/-- An applied-stereotype marker: one InstanceSpecification with its
identifier and its classifier collection (stereotype identifiers, in
order). -/
structure ISpec where
  id : Nat
  classifier : List Nat
deriving DecidableEq

/-- The slice of model state apply_stereotype and remove_stereotype touch:
the owning model of the element, its appliedStereotype collection in order,
the identifiers of the live InstanceSpecification elements of the model, and
the next fresh identifier. -/
structure StereoState where
  elemModel : Nat
  applied : List ISpec
  liveSpecs : List Nat
  nextId : Nat
deriving DecidableEq

/-- Embeds apply_stereotype (recipes.py lines 96-112) for a stereotype with
owning model stModel and identifier stId: assert same model first (raised
flag true, state untouched on failure); otherwise create an
InstanceSpecification, set its classifier to the stereotype and append it to
the appliedStereotype collection of the element. -/
def apply_stereotype (s : StereoState) (stModel stId : Nat) : Bool × StereoState :=
  if s.elemModel ≠ stModel then (true, s)
  else
    (false,
      { s with
        applied := s.applied ++ [⟨s.nextId, [stId]⟩],
        liveSpecs := s.liveSpecs ++ [s.nextId],
        nextId := s.nextId + 1 })

/-- The loop test of remove_stereotype (recipes.py line 126): the classifier
collection is non-empty and its first element is the stereotype. -/
def specMatches (stId : Nat) (o : ISpec) : Bool :=
  o.classifier.head? == some stId

/-- Embeds remove_stereotype (recipes.py lines 115-129): scan the
appliedStereotype collection in order, delete the first matching
InstanceSpecification from the collection, unlink it (modelled from the
spec: unlink removes the element from the model), and stop; no-op when no
instance matches. -/
def remove_stereotype (s : StereoState) (stId : Nat) : StereoState :=
  match s.applied.find? (specMatches stId) with
  | none => s
  | some o =>
    { s with
      applied := s.applied.erase o,
      liveSpecs := s.liveSpecs.filter (fun i => !(i == o.id)) }

/-- Claim C5: for any two elements from different model instances, each of
the eight constructors raises its same-model assertion and creates no
element (the pool and, for apply_stereotype, the whole state are returned
unchanged). -/
theorem C5_cross_model_constructors_raise (m1 m2 : Nat) (hne : m1 ≠ m2)
    (k1 k2 : EKind) (pool : Nat) (s : StereoState) (hm : s.elemModel = m1) (stId : Nat) :
    create_dependency ⟨m1, k1⟩ ⟨m2, k2⟩ pool = (true, pool) ∧
    create_realization ⟨m1, k1⟩ ⟨m2, k2⟩ pool = (true, pool) ∧
    create_generalization ⟨m1, k1⟩ ⟨m2, k2⟩ pool = (true, pool) ∧
    create_association ⟨m1, k1⟩ ⟨m2, k2⟩ pool = (true, pool) ∧
    create_extension ⟨m1, k1⟩ ⟨m2, k2⟩ pool = (true, pool) ∧
    add_slot ⟨m1, k1⟩ ⟨m2, k2⟩ pool = (true, pool) ∧
    create_connector ⟨m1, k1⟩ ⟨m2, k2⟩ pool = (true, pool, none) ∧
    apply_stereotype s m2 stId = (true, s) := by
  refine ⟨?_, ?_, ?_, ?_, ?_, ?_, ?_, ?_⟩ <;>
    simp [create_dependency, create_realization, create_generalization, create_association,
      create_extension, add_slot, create_connector, apply_stereotype, hne, hm]

/-- Witness for C5 at two concrete models. -/
theorem C5_cross_model_constructors_raise_witness :
    ((0 : Nat) ≠ 1 ∧ (⟨0, [], [], 0⟩ : StereoState).elemModel = 0) ∧
    (create_dependency ⟨0, .kClass⟩ ⟨1, .kClass⟩ 0 = (true, 0) ∧
     create_realization ⟨0, .kClass⟩ ⟨1, .kClass⟩ 0 = (true, 0) ∧
     create_generalization ⟨0, .kClass⟩ ⟨1, .kClass⟩ 0 = (true, 0) ∧
     create_association ⟨0, .kClass⟩ ⟨1, .kClass⟩ 0 = (true, 0) ∧
     create_extension ⟨0, .kClass⟩ ⟨1, .kClass⟩ 0 = (true, 0) ∧
     add_slot ⟨0, .kClass⟩ ⟨1, .kClass⟩ 0 = (true, 0) ∧
     create_connector ⟨0, .kClass⟩ ⟨1, .kClass⟩ 0 = (true, 0, none) ∧
     apply_stereotype ⟨0, [], [], 0⟩ 1 5 = (true, ⟨0, [], [], 0⟩)) :=
  ⟨⟨by decide, rfl⟩,
   C5_cross_model_constructors_raise 0 1 (by decide) .kClass .kClass 0 ⟨0, [], [], 0⟩ rfl 5⟩

/-- Claim C6 (code bug evaluation): create_connector applied to a Port role
and a Property role in the same model succeeds but yields connector kind
assembly, because the isinstance tests of recipes.py lines 302-304 inspect
the freshly created ConnectorEnd elements end_a and end_b instead of the
role elements type_a and type_b, so they can never see a Port or a Property
and the delegation branch is unreachable. -/
theorem C6_connector_port_property_yields_assembly :
    create_connector ⟨0, .kPort⟩ ⟨0, .kProperty⟩ 0 = (false, 3, some "assembly") ∧
    (∀ a b : KElem, ∀ pool : Nat, (create_connector a b pool).2.2 ≠ some "delegation") := by
  refine ⟨by decide, fun a b pool => ?_⟩
  unfold create_connector
  split <;> simp [isPort, isProperty]

theorem find?_append_of_none {α : Type} (p : α → Bool) (l1 l2 : List α)
    (h : ∀ x ∈ l1, ¬ p x) : (l1 ++ l2).find? p = l2.find? p := by
  induction l1 with
  | nil => rfl
  | cons a l ih =>
    rw [List.cons_append, List.find?_cons_of_neg _ (h a (by simp))]
    exact ih fun x hx => h x (by simp [hx])

/-- Claim C8 (counterexample): when the stereotype is already applied to the
element, apply_stereotype followed by remove_stereotype does not restore the
appliedStereotype collection, because remove_stereotype unlinks the first
matching InstanceSpecification, which is the pre-existing one; the created
InstanceSpecification (id 1) stays applied and live. -/
theorem C8_counterexample_already_applied :
    (apply_stereotype ⟨0, [⟨0, [7]⟩], [0], 1⟩ 0 7).1 = false ∧
    (remove_stereotype (apply_stereotype ⟨0, [⟨0, [7]⟩], [0], 1⟩ 0 7).2 7).applied ≠
      (⟨0, [⟨0, [7]⟩], [0], 1⟩ : StereoState).applied ∧
    1 ∈ (remove_stereotype (apply_stereotype ⟨0, [⟨0, [7]⟩], [0], 1⟩ 0 7).2 7).liveSpecs := by
  refine ⟨rfl, ?_, by decide⟩
  decide

/-- Claim C8 as amended: for an element and stereotype in the same model,
when no already-applied InstanceSpecification has the stereotype as its
first classifier, apply_stereotype followed by remove_stereotype with the
same stereotype restores the appliedStereotype collection and leaves no
stray InstanceSpecification (the created one is unlinked); and
remove_stereotype is a successful no-op whenever no applied instance has the
given stereotype as classifier. -/
theorem C8_apply_then_remove_restores (s : StereoState) (stModel stId : Nat)
    (hm : s.elemModel = stModel)
    (hnew : ∀ o ∈ s.applied, specMatches stId o = false)
    (hfresh : s.nextId ∉ s.liveSpecs) :
    ((apply_stereotype s stModel stId).1 = false ∧
     (remove_stereotype (apply_stereotype s stModel stId).2 stId).applied = s.applied ∧
     (remove_stereotype (apply_stereotype s stModel stId).2 stId).liveSpecs = s.liveSpecs) ∧
    (∀ stId2 : Nat, (∀ o ∈ s.applied, specMatches stId2 o = false) →
      remove_stereotype s stId2 = s) := by
  have noop : ∀ stId2 : Nat, (∀ o ∈ s.applied, specMatches stId2 o = false) →
      remove_stereotype s stId2 = s := by
    intro stId2 h2
    have : s.applied.find? (specMatches stId2) = none :=
      List.find?_eq_none.mpr fun x hx => by simp [h2 x hx]
    simp [remove_stereotype, this]
  have happ : apply_stereotype s stModel stId =
      (false, ⟨s.elemModel, s.applied ++ [⟨s.nextId, [stId]⟩],
        s.liveSpecs ++ [s.nextId], s.nextId + 1⟩) := by
    simp [apply_stereotype, hm]
  have hmatch : specMatches stId ⟨s.nextId, [stId]⟩ = true := by simp [specMatches]
  have hfind : (s.applied ++ [(⟨s.nextId, [stId]⟩ : ISpec)]).find? (specMatches stId) =
      some (⟨s.nextId, [stId]⟩ : ISpec) := by
    rw [find?_append_of_none _ _ _ (fun x hx => by simp [hnew x hx])]
    simp [List.find?, hmatch]
  have hnotmem : (⟨s.nextId, [stId]⟩ : ISpec) ∉ s.applied := by
    intro hmem
    have := hnew _ hmem
    rw [hmatch] at this
    exact absurd this (by decide)
  refine ⟨⟨by rw [happ], ?_, ?_⟩, noop⟩
  · rw [happ]
    simp only [remove_stereotype, hfind]
    exact erase_snoc_self hnotmem
  · rw [happ]
    simp only [remove_stereotype, hfind]
    have h1 : ∀ a ∈ s.liveSpecs, (!(a == s.nextId)) = true := by
      intro a ha
      have hne : a ≠ s.nextId := fun h => hfresh (h ▸ ha)
      simp [hne]
    rw [List.filter_append, List.filter_eq_self.mpr h1]
    simp

/-- Witness for C8 at a concrete state with one unrelated applied
stereotype. -/
theorem C8_apply_then_remove_restores_witness :
    ((⟨0, [⟨0, [9]⟩], [0], 1⟩ : StereoState).elemModel = 0 ∧
     (∀ o ∈ (⟨0, [⟨0, [9]⟩], [0], 1⟩ : StereoState).applied, specMatches 7 o = false) ∧
     (⟨0, [⟨0, [9]⟩], [0], 1⟩ : StereoState).nextId ∉
       (⟨0, [⟨0, [9]⟩], [0], 1⟩ : StereoState).liveSpecs) ∧
    ((apply_stereotype ⟨0, [⟨0, [9]⟩], [0], 1⟩ 0 7).1 = false ∧
     (remove_stereotype (apply_stereotype ⟨0, [⟨0, [9]⟩], [0], 1⟩ 0 7).2 7).applied =
       [⟨0, [9]⟩] ∧
     (remove_stereotype (apply_stereotype ⟨0, [⟨0, [9]⟩], [0], 1⟩ 0 7).2 7).liveSpecs = [0]) :=
  ⟨⟨rfl, by decide, by decide⟩,
   (C8_apply_then_remove_restores ⟨0, [⟨0, [9]⟩], [0], 1⟩ 0 7 rfl (by decide) (by decide)).1⟩

/-- The concrete literal metaclasses of the value-specification family, plus
one stand-in for any other ValueSpecification kind the isinstance chains do
not recognize. -/
inductive LKind where
  | boolean
  | integer
  | unlimitedNatural
  | str
  | other
deriving DecidableEq

/-- Modelled from the spec: the UnlimitedNatural numeric domain (Decimal in
the source), an integer or positive infinity. -/
inductive UNVal where
  | fin (n : Int)
  | inf
deriving DecidableEq

/-- A runtime value stored in the value attribute of a literal element. -/
inductive LVal where
  | vBool (b : Bool)
  | vInt (n : Int)
  | vUN (u : UNVal)
  | vStr (s : String)
deriving DecidableEq

/-- The owning feature a literal element can be composed into: the value of
the slot, or the defaultValue, lowerValue or upperValue of the property, or
the lowerValue or upperValue of the multiplicity element. -/
inductive Owner where
  | oSlot
  | oDefault
  | oLower
  | oUpper
  | oMultLower
  | oMultUpper
deriving DecidableEq

/-- A live literal element of the model: identity, concrete metaclass, the
value and name attributes (none when never assigned), and the owning feature
reference (owningSlot, owningProperty, owningLower or owningUpper in the
source). -/
structure LitObj where
  id : Nat
  kind : LKind
  value : Option LVal
  name : Option String
  owner : Option Owner
deriving DecidableEq

/-- The slice of model state the literal-value recipes touch: the pool of
live literal elements, the next fresh identifier, the typeValue attribute of
the property, and the literal reference held by each owning feature
(slot.value, property.defaultValue / lowerValue / upperValue,
multiplicity.lowerValue / upperValue). -/
structure MState where
  nextId : Nat
  live : List LitObj
  typeValue : Option String
  slotRef : Option Nat
  defaultRef : Option Nat
  lowerRef : Option Nat
  upperRef : Option Nat
  multLowerRef : Option Nat
  multUpperRef : Option Nat
deriving DecidableEq

/-- The empty model slice: no literal elements, no feature references. -/
def mstate0 : MState := ⟨0, [], none, none, none, none, none, none, none⟩

/-- The identifiers of the live literal elements. -/
def liveIds (s : MState) : List Nat := s.live.map (fun l => l.id)

/-- The literal reference currently held by an owning feature. -/
def refOf (s : MState) (o : Owner) : Option Nat :=
  match o with
  | .oSlot => s.slotRef
  | .oDefault => s.defaultRef
  | .oLower => s.lowerRef
  | .oUpper => s.upperRef
  | .oMultLower => s.multLowerRef
  | .oMultUpper => s.multUpperRef

/-- Overwrite the literal reference of an owning feature. -/
def setRef (s : MState) (o : Owner) (r : Option Nat) : MState :=
  match o with
  | .oSlot => { s with slotRef := r }
  | .oDefault => { s with defaultRef := r }
  | .oLower => { s with lowerRef := r }
  | .oUpper => { s with upperRef := r }
  | .oMultLower => { s with multLowerRef := r }
  | .oMultUpper => { s with multUpperRef := r }

def clearRef (r : Option Nat) (i : Nat) : Option Nat :=
  if r = some i then none else r

/-- Modelled from the spec: element.unlink() removes the literal element
from the model and severs all its links, so every feature reference to it
becomes empty. -/
def unlink (s : MState) (i : Nat) : MState :=
  { nextId := s.nextId,
    live := s.live.filter (fun l => !(l.id == i)),
    typeValue := s.typeValue,
    slotRef := clearRef s.slotRef i,
    defaultRef := clearRef s.defaultRef i,
    lowerRef := clearRef s.lowerRef i,
    upperRef := clearRef s.upperRef i,
    multLowerRef := clearRef s.multLowerRef i,
    multUpperRef := clearRef s.multUpperRef i }

/-- Look up a live literal element by identifier. -/
def getLit (s : MState) (i : Nat) : Option LitObj :=
  s.live.find? (fun l => l.id == i)

/-- Apply an attribute update to the live literal element with identifier i. -/
def mapLit (s : MState) (i : Nat) (f : LitObj → LitObj) : MState :=
  { s with live := s.live.map (fun l => if l.id == i then f l else l) }

def setOwner (s : MState) (i : Nat) (o : Owner) : MState :=
  mapLit s i (fun l => { l with owner := some o })

def setValue (s : MState) (i : Nat) (v : LVal) : MState :=
  mapLit s i (fun l => { l with value := some v })

def setName (s : MState) (i : Nat) (n : String) : MState :=
  mapLit s i (fun l => { l with name := some n })

/-- Modelled from the spec: model.create(Kind) allocates a fresh literal
element of the given metaclass with unassigned attributes. -/
def createLit (s : MState) (k : LKind) : Nat × MState :=
  (s.nextId,
   { s with nextId := s.nextId + 1, live := s.live ++ [⟨s.nextId, k, none, none, none⟩] })

/-- The unlink-the-current-literal step every setter performs first (the
source tests the feature reference for truthiness, which for an element
means it is not None). -/
def unlinkCurrent (s : MState) (o : Owner) : MState :=
  match refOf s o with
  | some i => unlink s i
  | none => s

/-- The create-link-own step shared by the setters: create a fresh literal
of metaclass k, store it in the owning feature reference, and set its owner
back-reference. -/
def attachFresh (s : MState) (o : Owner) (k : LKind) : Nat × MState :=
  let c := createLit s k
  (c.1, setOwner (setRef c.2 o (some c.1)) c.1 o)

/-- Python whitespace accepted by int(str) at both ends. -/
def pyWs (c : Char) : Bool :=
  c == ' ' || c == '\t' || c == '\n' || c == '\r' || c == Char.ofNat 11 || c == Char.ofNat 12

def pyStripChars (cs : List Char) : List Char :=
  ((cs.dropWhile pyWs).reverse.dropWhile pyWs).reverse

/-- The digit tail of a Python integer literal: further digits, with single
underscores allowed between digits; returns the digits with underscores
removed, or none when malformed. -/
def pyDigitsRest : List Char → Option (List Char)
  | [] => some []
  | '_' :: c :: rest =>
    if c.isDigit then (pyDigitsRest rest).map (fun ds => c :: ds) else none
  | ['_'] => none
  | c :: rest =>
    if c.isDigit then (pyDigitsRest rest).map (fun ds => c :: ds) else none

def digitsToNat (ds : List Char) : Nat :=
  ds.foldl (fun a c => a * 10 + (c.toNat - 48)) 0

def pyIntDigits (cs : List Char) : Option Nat :=
  match cs with
  | [] => none
  | c :: rest =>
    if c.isDigit then
      match pyDigitsRest rest with
      | some ds => some (digitsToNat (c :: ds))
      | none => none
    else none

/-- Models the Python built-in int(str) on ASCII strings: optional
surrounding whitespace, optional sign, then a digit run with underscores
allowed between digits; none models the ValueError raise.  (Non-ASCII digit
characters, which CPython would also accept, are treated as failures; no
claim exercises them.) -/
def pyInt (s : String) : Option Int :=
  match pyStripChars s.data with
  | '+' :: rest => (pyIntDigits rest).map (fun n => (n : Int))
  | '-' :: rest => (pyIntDigits rest).map (fun n => -(n : Int))
  | cs => (pyIntDigits cs).map (fun n => (n : Int))

/-- Models the Python built-in str() applied to the value attribute of a
literal element: str of a Decimal integer and of an int is the decimal
numeral, str(None) is the text None. -/
def pyStrOfLVal : Option LVal → String
  | none => "None"
  | some (.vBool true) => "True"
  | some (.vBool false) => "False"
  | some (.vInt n) => toString n
  | some (.vUN (.fin n)) => toString n
  | some (.vUN .inf) => "Infinity"
  | some (.vStr t) => t

/-- Models str.isnumeric for ASCII strings: non-empty and all digits. -/
def pyIsNumeric (s : String) : Bool :=
  !s.data.isEmpty && s.data.all Char.isDigit

def stripQuotes (s : String) : String :=
  String.mk (s.data.filter (fun c => !(c == '"')))

/-- Embeds set_slot_value (recipes.py lines 222-229): unlink any current
value, create a LiteralString, link and own it, then assign its value
attribute (the name attribute is not assigned). -/
def set_slot_value (s : MState) (v : String) : MState :=
  let s1 := unlinkCurrent s .oSlot
  let c := attachFresh s1 .oSlot .str
  setValue c.2 c.1 (.vStr v)

/-- Embeds get_slot_value (recipes.py lines 213-219): None when no value is
attached, str of the value attribute when the attached literal is a
LiteralString, None for every other literal kind.  (A dangling reference
cannot arise through the embedded operations; it is mapped to None.) -/
def get_slot_value (s : MState) : Option String :=
  match s.slotRef with
  | none => none
  | some i =>
    match getLit s i with
    | none => none
    | some l => if l.kind == .str then some (pyStrOfLVal l.value) else none

/-- Embeds set_property_lower_value_from_string (recipes.py lines 571-581):
unlink any current lowerValue; stop when the new value is None; otherwise
create a LiteralInteger, link and own it, then assign value := int(string)
-- which raises ValueError (first component true) after the link when the
string does not parse -- and finally the name attribute. -/
def set_property_lower_value_from_string (s : MState) (v : Option String) : Bool × MState :=
  let s1 := unlinkCurrent s .oLower
  match v with
  | none => (false, s1)
  | some v =>
    let c := attachFresh s1 .oLower .integer
    match pyInt v with
    | none => (true, c.2)
    | some n => (false, setName (setValue c.2 c.1 (.vInt n)) c.1 v)

/-- Embeds set_multiplicity_lower_value_from_string (recipes.py lines
673-685), line for line the lower-value pattern on the multiplicity
feature. -/
def set_multiplicity_lower_value_from_string (s : MState) (v : Option String) : Bool × MState :=
  let s1 := unlinkCurrent s .oMultLower
  match v with
  | none => (false, s1)
  | some v =>
    let c := attachFresh s1 .oMultLower .integer
    match pyInt v with
    | none => (true, c.2)
    | some n => (false, setName (setValue c.2 c.1 (.vInt n)) c.1 v)

/-- Embeds set_property_upper_value_from_string (recipes.py lines 622-635):
unlink any current upperValue; stop when the new value is None; otherwise
create a LiteralUnlimitedNatural, link and own it, assign value := infinity
for the star string and value := Decimal(int(string)) otherwise -- the int
conversion raises after the link when the string does not parse -- and
finally the name attribute. -/
def set_property_upper_value_from_string (s : MState) (v : Option String) : Bool × MState :=
  let s1 := unlinkCurrent s .oUpper
  match v with
  | none => (false, s1)
  | some v =>
    let c := attachFresh s1 .oUpper .unlimitedNatural
    if v == "*" then (false, setName (setValue c.2 c.1 (.vUN .inf)) c.1 v)
    else
      match pyInt v with
      | none => (true, c.2)
      | some n => (false, setName (setValue c.2 c.1 (.vUN (.fin n))) c.1 v)

/-- The type-inference step of create_value_specification_for_type_and_value
(recipes.py lines 498-506): when the type is unspecified it is inferred from
the string -- the words true and false give bool, a numeric string gives int,
anything else gives str. -/
def inferTypeStr (ty : Option String) (v : String) : String :=
  match ty with
  | some t => t
  | none =>
    if v == "true" || v == "false" then "bool"
    else if pyIsNumeric v then "int"
    else "str"

/-- Embeds create_value_specification_for_type_and_value (recipes.py lines
495-537).  The result is (raised, reference to the created literal, state):
the boolean branch stores true/false with matching name; the string branch
stores the raw string with a quote-stripped name; the integer and
unlimited-natural branches create the literal first and then run int(value),
which raises (leaking the fresh unset literal) when the string does not
parse; an unmatched type string creates nothing and returns no reference. -/
def create_value_specification_for_type_and_value (s : MState) (ty : Option String)
    (v : Option String) : Bool × Option Nat × MState :=
  match v with
  | none => (false, none, s)
  | some v =>
    let t : String := inferTypeStr ty v
    if t == "bool" || t == "Boolean" then
      let c := createLit s .boolean
      if v == "true" then (false, some c.1, setName (setValue c.2 c.1 (.vBool true)) c.1 "true")
      else (false, some c.1, setName (setValue c.2 c.1 (.vBool false)) c.1 "false")
    else if t == "str" || t == "String" then
      let c := createLit s .str
      (false, some c.1, setName (setValue c.2 c.1 (.vStr v)) c.1 (stripQuotes v))
    else if t == "int" || t == "Integer" then
      let c := createLit s .integer
      match pyInt v with
      | none => (true, none, c.2)
      | some n => (false, some c.1, setName (setValue c.2 c.1 (.vInt n)) c.1 v)
    else if t == "UnlimitedNatural" then
      let c := createLit s .unlimitedNatural
      if v == "*" then (false, some c.1, setName (setValue c.2 c.1 (.vUN .inf)) c.1 "*")
      else
        match pyInt v with
        | none => (true, none, c.2)
        | some n => (false, some c.1, setName (setValue c.2 c.1 (.vUN (.fin n))) c.1 v)
    else (false, none, s)

/-- Embeds set_property_default_value_from_string (recipes.py lines
479-492): unlink any current defaultValue; stop when the new value is None;
otherwise build the literal with
create_value_specification_for_type_and_value on the typeValue of the
property (a raise there propagates), assign the defaultValue reference
(possibly to nothing) and, when a literal was built, its owner
back-reference. -/
def set_property_default_value_from_string (s : MState) (v : Option String) : Bool × MState :=
  let s1 := unlinkCurrent s .oDefault
  match v with
  | none => (false, s1)
  | some v =>
    let r := create_value_specification_for_type_and_value s1 s1.typeValue (some v)
    if r.1 then (true, r.2.2)
    else
      let s3 := setRef r.2.2 .oDefault r.2.1
      match r.2.1 with
      | some i => (false, setOwner s3 i .oDefault)
      | none => (false, s3)

/-- Embeds get_literal_value_as_string (recipes.py lines 460-476): dispatch
on the concrete literal kind -- unlimited natural to star or the decimal
numeral, integer and string to str of the value attribute, boolean to the
lowercase words, any other kind to None.  (For an unlimited-natural literal
whose value attribute does not hold a number the source would raise a
TypeError in math.isinf; that state is unreachable through the embedded
setters and is mapped to None.) -/
def get_literal_value_as_string (l : Option LitObj) : Option String :=
  match l with
  | none => none
  | some l =>
    match l.kind with
    | .unlimitedNatural =>
      match l.value with
      | some (.vUN .inf) => some "*"
      | some (.vUN (.fin n)) => some (toString n)
      | _ => none
    | .integer => some (pyStrOfLVal l.value)
    | .str => some (pyStrOfLVal l.value)
    | .boolean =>
      match l.value with
      | some (.vBool true) => some "true"
      | _ => some "false"
    | .other => none

/-- Embeds get_property_default_value_as_string (recipes.py lines 453-457). -/
def get_property_default_value_as_string (s : MState) : Option String :=
  match s.defaultRef with
  | none => none
  | some i => get_literal_value_as_string (getLit s i)

/-- Embeds get_property_lower_value_as_string (recipes.py lines 549-555):
None when nothing is attached, str of the value attribute when the attached
literal is a LiteralInteger, None for every other kind. -/
def get_property_lower_value_as_string (s : MState) : Option String :=
  match s.lowerRef with
  | none => none
  | some i =>
    match getLit s i with
    | none => none
    | some l => if l.kind == .integer then some (pyStrOfLVal l.value) else none

/-- Embeds get_property_upper_value_as_string (recipes.py lines 593-601):
None when nothing is attached; when the attached literal is a
LiteralUnlimitedNatural, star for infinity else the decimal numeral; None
for every other kind.  (The non-numeric value attribute case would raise in
the source and is unreachable through the embedded setters.) -/
def get_property_upper_value_as_string (s : MState) : Option String :=
  match s.upperRef with
  | none => none
  | some i =>
    match getLit s i with
    | none => none
    | some l =>
      if l.kind == .unlimitedNatural then
        match l.value with
        | some (.vUN .inf) => some "*"
        | some (.vUN (.fin n)) => some (toString n)
        | _ => none
      else none

/-- Well-formedness of the literal model slice: live identifiers are unique
and below the fresh counter, every owned live literal is the one its owning
feature currently references, and feature references stay below the fresh
counter. -/
structure LitInv (s : MState) : Prop where
  nodup : (liveIds s).Nodup
  bounded : ∀ l ∈ s.live, l.id < s.nextId
  ownedRef : ∀ l ∈ s.live, ∀ o, l.owner = some o → refOf s o = some l.id
  refBounded : ∀ o i, refOf s o = some i → i < s.nextId

/-- The live literal elements currently owned by a feature; the single-value
invariant is that this collection never exceeds one element. -/
def countOwned (s : MState) (o : Owner) : Nat :=
  (s.live.filter (fun l => l.owner == some o)).length

theorem map_congr_fun {α β : Type} (l : List α) (f g : α → β) (h : ∀ a ∈ l, f a = g a) :
    l.map f = l.map g := by
  induction l with
  | nil => rfl
  | cons a t ih =>
    simp only [List.map_cons, h a (by simp)]
    rw [ih fun x hx => h x (by simp [hx])]

theorem nodup_snoc {α : Type} {l : List α} {a : α} (h : l.Nodup) (ha : a ∉ l) :
    (l ++ [a]).Nodup := by
  rw [List.nodup_append]
  refine ⟨h, List.nodup_singleton a, ?_⟩
  intro x hx hxa
  rw [List.mem_singleton] at hxa
  exact ha (hxa ▸ hx)

theorem refOf_unlink (s : MState) (i : Nat) (o : Owner) :
    refOf (unlink s i) o = clearRef (refOf s o) i := by
  cases o <;> rfl

theorem refOf_setRef_self (s : MState) (o : Owner) (r : Option Nat) :
    refOf (setRef s o r) o = r := by
  cases o <;> rfl

theorem refOf_setRef_other (s : MState) (o o2 : Owner) (r : Option Nat) (h : o2 ≠ o) :
    refOf (setRef s o r) o2 = refOf s o2 := by
  cases o <;> cases o2 <;> first | rfl | exact absurd rfl h

theorem refOf_mapLit (s : MState) (i : Nat) (f : LitObj → LitObj) (o : Owner) :
    refOf (mapLit s i f) o = refOf s o := by
  cases o <;> rfl

theorem nextId_mapLit (s : MState) (i : Nat) (f : LitObj → LitObj) :
    (mapLit s i f).nextId = s.nextId := rfl

theorem nextId_setRef (s : MState) (o : Owner) (r : Option Nat) :
    (setRef s o r).nextId = s.nextId := by
  cases o <;> rfl

theorem nextId_unlinkCurrent (s : MState) (o : Owner) :
    (unlinkCurrent s o).nextId = s.nextId := by
  unfold unlinkCurrent
  split <;> rfl

theorem typeValue_unlinkCurrent (s : MState) (o : Owner) :
    (unlinkCurrent s o).typeValue = s.typeValue := by
  unfold unlinkCurrent
  split <;> rfl

theorem refOf_unlinkCurrent_self (s : MState) (o : Owner) :
    refOf (unlinkCurrent s o) o = none := by
  unfold unlinkCurrent
  cases h : refOf s o with
  | none => exact h
  | some i =>
    rw [refOf_unlink, h]
    simp [clearRef]

theorem not_mem_liveIds_unlink (s : MState) (i : Nat) : i ∉ liveIds (unlink s i) := by
  intro hmem
  obtain ⟨l, hl, hid⟩ := List.mem_map.mp hmem
  have h2 := (List.mem_filter.mp hl).2
  simp [hid] at h2

theorem litInv_unlink {s : MState} (h : LitInv s) (i : Nat) : LitInv (unlink s i) := by
  refine ⟨?_, ?_, ?_, ?_⟩
  · exact h.nodup.sublist ((List.filter_sublist _).map _)
  · intro l hl
    exact h.bounded l (List.mem_filter.mp hl).1
  · intro l hl o ho
    have hm := List.mem_filter.mp hl
    rw [refOf_unlink, h.ownedRef l hm.1 o ho]
    have hne : l.id ≠ i := by simpa using hm.2
    simp [clearRef, hne]
  · intro o j hj
    rw [refOf_unlink] at hj
    unfold clearRef at hj
    split at hj
    · exact absurd hj (by simp)
    · exact h.refBounded o j hj

theorem litInv_unlinkCurrent {s : MState} (h : LitInv s) (o : Owner) :
    LitInv (unlinkCurrent s o) := by
  unfold unlinkCurrent
  split
  · exact litInv_unlink h _
  · exact h

theorem live_mapLit_eq {s : MState} {i : Nat} {f : LitObj → LitObj}
    (hi : ∀ l ∈ s.live, l.id ≠ i) : (mapLit s i f).live = s.live := by
  unfold mapLit
  simp only
  rw [map_congr_fun s.live _ id fun a ha => by simp [hi a ha], List.map_id]

theorem litInv_mapLit {s : MState} (h : LitInv s) (i : Nat) (f : LitObj → LitObj)
    (hid : ∀ l, (f l).id = l.id) (hown : ∀ l, (f l).owner = l.owner) :
    LitInv (mapLit s i f) := by
  have hids : liveIds (mapLit s i f) = liveIds s := by
    unfold liveIds mapLit
    simp only [List.map_map]
    exact map_congr_fun _ _ _ fun a ha => by
      simp only [Function.comp]
      split
      · exact hid a
      · rfl
  refine ⟨?_, ?_, ?_, ?_⟩
  · rw [hids]; exact h.nodup
  · intro l hl
    obtain ⟨a, ha, rfl⟩ := List.mem_map.mp hl
    have : (if (a.id == i) = true then f a else a).id = a.id := by
      split
      · exact hid a
      · rfl
    rw [nextId_mapLit, this]
    exact h.bounded a ha
  · intro l hl o ho
    obtain ⟨a, ha, rfl⟩ := List.mem_map.mp hl
    have hido : (if (a.id == i) = true then f a else a).id = a.id ∧
        (if (a.id == i) = true then f a else a).owner = a.owner := by
      constructor <;> split
      · exact hid a
      · rfl
      · exact hown a
      · rfl
    rw [refOf_mapLit, hido.1]
    exact h.ownedRef a ha o (hido.2 ▸ ho)
  · intro o j hj
    rw [refOf_mapLit] at hj
    rw [nextId_mapLit]
    exact h.refBounded o j hj

theorem litInv_setValue {s : MState} (h : LitInv s) (i : Nat) (v : LVal) :
    LitInv (setValue s i v) :=
  litInv_mapLit h i _ (fun l => rfl) (fun l => rfl)

theorem litInv_setName {s : MState} (h : LitInv s) (i : Nat) (n : String) :
    LitInv (setName s i n) :=
  litInv_mapLit h i _ (fun l => rfl) (fun l => rfl)

theorem live_setRef (s : MState) (o : Owner) (r : Option Nat) :
    (setRef s o r).live = s.live := by
  cases o <;> rfl

theorem typeValue_setRef (s : MState) (o : Owner) (r : Option Nat) :
    (setRef s o r).typeValue = s.typeValue := by
  cases o <;> rfl

theorem refOf_createLit (s : MState) (k : LKind) (o : Owner) :
    refOf (createLit s k).2 o = refOf s o := by
  cases o <;> rfl

theorem nextId_not_mem_liveIds {s : MState} (h : LitInv s) : s.nextId ∉ liveIds s := by
  intro hmem
  obtain ⟨l, hl, hid⟩ := List.mem_map.mp hmem
  exact absurd hid (Nat.ne_of_lt (h.bounded l hl))

theorem attachFresh_spec {s : MState} (o : Owner) (k : LKind) (h : LitInv s) :
    (attachFresh s o k).1 = s.nextId ∧
    (attachFresh s o k).2.live = s.live ++ [⟨s.nextId, k, none, none, some o⟩] ∧
    (attachFresh s o k).2.nextId = s.nextId + 1 ∧
    (attachFresh s o k).2.typeValue = s.typeValue ∧
    refOf (attachFresh s o k).2 o = some s.nextId ∧
    (∀ o2, o2 ≠ o → refOf (attachFresh s o k).2 o2 = refOf s o2) := by
  refine ⟨rfl, ?_, ?_, ?_, ?_, ?_⟩
  · show (mapLit (setRef (createLit s k).2 o (some s.nextId)) s.nextId _).live = _
    unfold mapLit
    simp only [live_setRef]
    show ((s.live ++ [(⟨s.nextId, k, none, none, none⟩ : LitObj)]).map _) = _
    rw [List.map_append]
    have h1 : s.live.map (fun l => if (l.id == s.nextId) = true then
        { l with owner := some o } else l) = s.live := by
      rw [map_congr_fun s.live _ id fun a ha => by
        simp [Nat.ne_of_lt (h.bounded a ha)], List.map_id]
    rw [h1]
    simp
  · show (mapLit (setRef (createLit s k).2 o (some s.nextId)) s.nextId _).nextId = _
    rw [nextId_mapLit, nextId_setRef]
    rfl
  · show (mapLit (setRef (createLit s k).2 o (some s.nextId)) s.nextId _).typeValue = _
    show (setRef (createLit s k).2 o (some s.nextId)).typeValue = _
    rw [typeValue_setRef]
    rfl
  · show refOf (mapLit (setRef (createLit s k).2 o (some s.nextId)) s.nextId _) o = _
    rw [refOf_mapLit, refOf_setRef_self]
  · intro o2 hne
    show refOf (mapLit (setRef (createLit s k).2 o (some s.nextId)) s.nextId _) o2 = _
    rw [refOf_mapLit, refOf_setRef_other _ _ _ _ hne, refOf_createLit]

theorem litInv_attachFresh {s : MState} (o : Owner) (k : LKind) (h : LitInv s)
    (href : refOf s o = none) : LitInv (attachFresh s o k).2 := by
  obtain ⟨-, hlive, hnext, -, hself, hother⟩ := attachFresh_spec o k h
  refine ⟨?_, ?_, ?_, ?_⟩
  · show ((attachFresh s o k).2.live.map _).Nodup
    rw [hlive, List.map_append]
    exact nodup_snoc h.nodup (nextId_not_mem_liveIds h)
  · intro l hl
    rw [hlive] at hl
    rw [hnext]
    rcases List.mem_append.mp hl with hold | hnew
    · exact Nat.lt_succ_of_lt (h.bounded l hold)
    · rw [List.mem_singleton.mp hnew]
      exact Nat.lt_succ_self _
  · intro l hl o2 ho
    rw [hlive] at hl
    rcases List.mem_append.mp hl with hold | hnew
    · by_cases heq : o2 = o
      · subst heq
        have := h.ownedRef l hold o2 ho
        rw [href] at this
        cases this
      · rw [hother o2 heq]
        exact h.ownedRef l hold o2 ho
    · rw [List.mem_singleton.mp hnew] at ho ⊢
      cases ho
      exact hself
  · intro o2 j hj
    rw [hnext]
    by_cases heq : o2 = o
    · subst heq
      rw [hself] at hj
      cases hj
      exact Nat.lt_succ_self _
    · rw [hother o2 heq] at hj
      exact Nat.lt_succ_of_lt (h.refBounded o2 j hj)

theorem filter_owned_length_le_one {L : List LitObj} {o : Owner} {k : Nat}
    (hnd : (L.map (fun l => l.id)).Nodup)
    (hall : ∀ l ∈ L, (l.owner == some o) = true → l.id = k) :
    (L.filter (fun l => l.owner == some o)).length ≤ 1 := by
  induction L with
  | nil => simp
  | cons a t ih =>
    rw [List.map_cons, List.nodup_cons] at hnd
    by_cases hp : (a.owner == some o) = true
    · rw [List.filter_cons, if_pos hp]
      have hempty : t.filter (fun l => l.owner == some o) = [] := by
        rw [List.filter_eq_nil_iff]
        intro x hx hpx
        have hxk : x.id = k := hall x (by simp [hx]) hpx
        have hak : a.id = k := hall a (by simp) hp
        exact hnd.1 (List.mem_map.mpr ⟨x, hx, by rw [hxk, hak]⟩)
      rw [hempty]
      simp
    · rw [List.filter_cons, if_neg (by simpa using hp)]
      exact ih hnd.2 fun l hl hpl => hall l (by simp [hl]) hpl

theorem litInv_countOwned_le_one {s : MState} (h : LitInv s) (o : Owner) :
    countOwned s o ≤ 1 := by
  unfold countOwned
  cases href : refOf s o with
  | none =>
    have : s.live.filter (fun l => l.owner == some o) = [] := by
      rw [List.filter_eq_nil_iff]
      intro l hl hp
      have := h.ownedRef l hl o (by simpa using hp)
      rw [href] at this
      cases this
    rw [this]
    simp
  | some kk =>
    refine filter_owned_length_le_one (k := kk) h.nodup fun l hl hp => ?_
    have := h.ownedRef l hl o (by simpa using hp)
    rw [href] at this
    exact (Option.some_inj.mp this).symm

theorem liveIds_mapLit (s : MState) (i : Nat) (f : LitObj → LitObj)
    (hid : ∀ l, (f l).id = l.id) : liveIds (mapLit s i f) = liveIds s := by
  unfold liveIds mapLit
  simp only [List.map_map]
  refine map_congr_fun _ _ _ fun a ha => ?_
  simp only [Function.comp]
  split
  · exact hid a
  · rfl

theorem liveIds_setValue (s : MState) (i : Nat) (v : LVal) :
    liveIds (setValue s i v) = liveIds s :=
  liveIds_mapLit s i _ fun l => rfl

theorem liveIds_setName (s : MState) (i : Nat) (n : String) :
    liveIds (setName s i n) = liveIds s :=
  liveIds_mapLit s i _ fun l => rfl

theorem liveIds_setOwner (s : MState) (i : Nat) (o : Owner) :
    liveIds (setOwner s i o) = liveIds s :=
  liveIds_mapLit s i _ fun l => rfl

theorem liveIds_setRef (s : MState) (o : Owner) (r : Option Nat) :
    liveIds (setRef s o r) = liveIds s := by
  unfold liveIds
  rw [live_setRef]

theorem litInv_createLit {s : MState} (h : LitInv s) (k : LKind) :
    LitInv (createLit s k).2 := by
  refine ⟨?_, ?_, ?_, ?_⟩
  · show ((s.live ++ [(⟨s.nextId, k, none, none, none⟩ : LitObj)]).map _).Nodup
    rw [List.map_append]
    exact nodup_snoc h.nodup (nextId_not_mem_liveIds h)
  · intro l hl
    rcases List.mem_append.mp hl with hold | hnew
    · exact Nat.lt_succ_of_lt (h.bounded l hold)
    · rw [List.mem_singleton.mp hnew]
      exact Nat.lt_succ_self _
  · intro l hl o ho
    rcases List.mem_append.mp hl with hold | hnew
    · rw [refOf_createLit]
      exact h.ownedRef l hold o ho
    · rw [List.mem_singleton.mp hnew] at ho
      cases ho
  · intro o j hj
    rw [refOf_createLit] at hj
    exact Nat.lt_succ_of_lt (h.refBounded o j hj)

theorem map_snoc_congr {α : Type} (L : List α) (x : α) (g : α → α)
    (hL : ∀ a ∈ L, g a = a) : (L ++ [x]).map g = L ++ [g x] := by
  rw [List.map_append, map_congr_fun L g id hL, List.map_id]
  rfl

theorem nextId_setOwner (s : MState) (i : Nat) (o : Owner) :
    (setOwner s i o).nextId = s.nextId := rfl

theorem refOf_setOwner (s : MState) (i : Nat) (o o2 : Owner) :
    refOf (setOwner s i o) o2 = refOf s o2 :=
  refOf_mapLit s i _ o2

/-- After create + value + name, the pool is the old pool plus the fresh
literal carrying the payload (and no owner). -/
theorem createLit_payload_live {s : MState} (h : LitInv s) (k : LKind) (v : LVal)
    (nm : String) :
    (setName (setValue (createLit s k).2 (createLit s k).1 v) (createLit s k).1 nm).live =
      s.live ++ [⟨s.nextId, k, some v, some nm, none⟩] := by
  have hfst : (createLit s k).1 = s.nextId := rfl
  have hlive : (createLit s k).2.live =
      s.live ++ [(⟨s.nextId, k, none, none, none⟩ : LitObj)] := rfl
  unfold setName setValue mapLit
  simp only [hfst, hlive]
  rw [map_snoc_congr _ _ _ fun a ha => by simp [Nat.ne_of_lt (h.bounded a ha)]]
  rw [map_snoc_congr _ _ _ fun a ha => by simp [Nat.ne_of_lt (h.bounded a ha)]]
  simp

/-- After attach + value + name, the pool is the old pool plus the fresh
literal carrying the payload and owned by the feature. -/
theorem attachFresh_payload_live {s : MState} (h : LitInv s) (o : Owner) (k : LKind)
    (v : LVal) (nm : String) :
    (setName (setValue (attachFresh s o k).2 (attachFresh s o k).1 v)
        (attachFresh s o k).1 nm).live =
      s.live ++ [⟨s.nextId, k, some v, some nm, some o⟩] := by
  obtain ⟨hfst, hlive, -, -, -, -⟩ := attachFresh_spec o k h
  unfold setName setValue mapLit
  simp only [hfst, hlive]
  rw [map_snoc_congr _ _ _ fun a ha => by simp [Nat.ne_of_lt (h.bounded a ha)]]
  rw [map_snoc_congr _ _ _ fun a ha => by simp [Nat.ne_of_lt (h.bounded a ha)]]
  simp

theorem getLit_of_live_snoc {f : MState} {L : List LitObj} {x : LitObj}
    (hlive : f.live = L ++ [x]) (hbound : ∀ l ∈ L, l.id ≠ x.id) :
    getLit f x.id = some x := by
  unfold getLit
  rw [hlive, find?_append_of_none _ _ _ fun l hl => by simp [hbound l hl]]
  simp [List.find?]

/-- Re-pointing an empty feature reference at an existing literal and
stamping that literal with the owner keeps the state well formed. -/
theorem litInv_adopt {t : MState} (o : Owner) (j : Nat) (h : LitInv t)
    (href : refOf t o = none) (hj : j < t.nextId) :
    LitInv (setOwner (setRef t o (some j)) j o) := by
  refine ⟨?_, ?_, ?_, ?_⟩
  · rw [liveIds_setOwner, liveIds_setRef]
    exact h.nodup
  · intro l hl
    have hl2 : l ∈ (setRef t o (some j)).live.map (fun a =>
        if (a.id == j) = true then { a with owner := some o } else a) := hl
    rw [live_setRef] at hl2
    obtain ⟨a, ha, rfl⟩ := List.mem_map.mp hl2
    have hid : (if (a.id == j) = true then { a with owner := some o } else a).id = a.id := by
      split <;> rfl
    rw [nextId_setOwner, nextId_setRef, hid]
    exact h.bounded a ha
  · intro l hl o2 ho
    have hl2 : l ∈ (setRef t o (some j)).live.map (fun a =>
        if (a.id == j) = true then { a with owner := some o } else a) := hl
    rw [live_setRef] at hl2
    obtain ⟨a, ha, rfl⟩ := List.mem_map.mp hl2
    rw [refOf_setOwner]
    by_cases hc : (a.id == j) = true
    · rw [if_pos hc] at ho ⊢
      simp only at ho
      cases ho
      rw [refOf_setRef_self]
      have hja : a.id = j := eq_of_beq hc
      simp [hja]
    · rw [if_neg hc] at ho ⊢
      have ho2 : a.owner = some o2 := ho
      have hne : o2 ≠ o := by
        intro heq
        subst heq
        have := h.ownedRef a ha o2 ho2
        rw [href] at this
        cases this
      rw [refOf_setRef_other _ _ _ _ hne]
      exact h.ownedRef a ha o2 ho2
  · intro o2 i hi
    rw [refOf_setOwner] at hi
    rw [nextId_setOwner, nextId_setRef]
    by_cases heq : o2 = o
    · subst heq
      rw [refOf_setRef_self] at hi
      cases hi
      exact hj
    · rw [refOf_setRef_other _ _ _ _ heq] at hi
      exact h.refBounded o2 i hi

/-- Writing back the value a feature reference already holds is the
identity. -/
theorem setRef_refOf_eq {t : MState} {o : Owner} {r : Option Nat}
    (href : refOf t o = r) : setRef t o r = t := by
  cases o <;> (rw [← href]; rfl)

theorem refOf_setValue (s : MState) (i : Nat) (v : LVal) (o : Owner) :
    refOf (setValue s i v) o = refOf s o :=
  refOf_mapLit s i _ o

theorem refOf_setName (s : MState) (i : Nat) (n : String) (o : Owner) :
    refOf (setName s i n) o = refOf s o :=
  refOf_mapLit s i _ o

theorem nextId_setValue (s : MState) (i : Nat) (v : LVal) :
    (setValue s i v).nextId = s.nextId := rfl

theorem nextId_setName (s : MState) (i : Nat) (n : String) :
    (setName s i n).nextId = s.nextId := rfl

theorem nextId_createLit (s : MState) (k : LKind) :
    (createLit s k).2.nextId = s.nextId + 1 := rfl

theorem liveIds_createLit (s : MState) (k : LKind) :
    liveIds (createLit s k).2 = liveIds s ++ [s.nextId] := by
  unfold liveIds createLit
  simp

theorem createVS_leaf_A {u : MState} (h : LitInv u) (k : LKind) (val : LVal) (nm : String) :
    LitInv (setName (setValue (createLit u k).2 (createLit u k).1 val)
      (createLit u k).1 nm) ∧
    (∀ o, refOf (setName (setValue (createLit u k).2 (createLit u k).1 val)
      (createLit u k).1 nm) o = refOf u o) ∧
    (∀ j : Nat, some (createLit u k).1 = some j → j = u.nextId ∧
      (setName (setValue (createLit u k).2 (createLit u k).1 val)
        (createLit u k).1 nm).nextId = u.nextId + 1) ∧
    (∀ x, x ∈ liveIds (setName (setValue (createLit u k).2 (createLit u k).1 val)
      (createLit u k).1 nm) → x ∈ liveIds u ∨ x = u.nextId) := by
  refine ⟨litInv_setName (litInv_setValue (litInv_createLit h k) _ _) _ _, ?_, ?_, ?_⟩
  · intro o
    rw [refOf_setName, refOf_setValue, refOf_createLit]
  · intro j hj
    cases hj
    exact ⟨rfl, rfl⟩
  · intro x hx
    rw [liveIds_setName, liveIds_setValue, liveIds_createLit] at hx
    rcases List.mem_append.mp hx with hold | hnew
    · exact Or.inl hold
    · exact Or.inr (List.mem_singleton.mp hnew)

theorem createVS_leaf_B {u : MState} (h : LitInv u) (k : LKind) :
    LitInv (createLit u k).2 ∧
    (∀ o, refOf (createLit u k).2 o = refOf u o) ∧
    (∀ j : Nat, (none : Option Nat) = some j → j = u.nextId ∧
      (createLit u k).2.nextId = u.nextId + 1) ∧
    (∀ x, x ∈ liveIds (createLit u k).2 → x ∈ liveIds u ∨ x = u.nextId) := by
  refine ⟨litInv_createLit h k, fun o => refOf_createLit u k o, fun j hj => Option.noConfusion hj, ?_⟩
  intro x hx
  rw [liveIds_createLit] at hx
  rcases List.mem_append.mp hx with hold | hnew
  · exact Or.inl hold
  · exact Or.inr (List.mem_singleton.mp hnew)

theorem createVS_spec {u : MState} (ty : Option String) (v : Option String) (h : LitInv u) :
    LitInv (create_value_specification_for_type_and_value u ty v).2.2 ∧
    (∀ o, refOf (create_value_specification_for_type_and_value u ty v).2.2 o = refOf u o) ∧
    (∀ j, (create_value_specification_for_type_and_value u ty v).2.1 = some j →
      j = u.nextId ∧
      (create_value_specification_for_type_and_value u ty v).2.2.nextId = u.nextId + 1) ∧
    (∀ x, x ∈ liveIds (create_value_specification_for_type_and_value u ty v).2.2 →
      x ∈ liveIds u ∨ x = u.nextId) := by
  unfold create_value_specification_for_type_and_value
  cases v with
  | none => exact ⟨h, fun o => rfl, fun j hj => Option.noConfusion hj, fun x hx => Or.inl hx⟩
  | some v =>
    simp only
    generalize inferTypeStr ty v = t0
    by_cases c1 : (t0 == "bool" || t0 == "Boolean") = true
    · rw [if_pos c1]
      by_cases c2 : (v == "true") = true
      · rw [if_pos c2]
        exact createVS_leaf_A h .boolean (.vBool true) "true"
      · rw [if_neg c2]
        exact createVS_leaf_A h .boolean (.vBool false) "false"
    · rw [if_neg c1]
      by_cases c3 : (t0 == "str" || t0 == "String") = true
      · rw [if_pos c3]
        exact createVS_leaf_A h .str (.vStr v) (stripQuotes v)
      · rw [if_neg c3]
        by_cases c4 : (t0 == "int" || t0 == "Integer") = true
        · rw [if_pos c4]
          cases hp : pyInt v with
          | none => exact createVS_leaf_B h .integer
          | some n => exact createVS_leaf_A h .integer (.vInt n) v
        · rw [if_neg c4]
          by_cases c5 : (t0 == "UnlimitedNatural") = true
          · rw [if_pos c5]
            by_cases c6 : (v == "*") = true
            · rw [if_pos c6]
              exact createVS_leaf_A h .unlimitedNatural (.vUN .inf) "*"
            · rw [if_neg c6]
              cases hp : pyInt v with
              | none => exact createVS_leaf_B h .unlimitedNatural
              | some n => exact createVS_leaf_A h .unlimitedNatural (.vUN (.fin n)) v
          · rw [if_neg c5]
            exact ⟨h, fun o => rfl, fun j hj => Option.noConfusion hj, fun x hx => Or.inl hx⟩

theorem liveIds_of_live_snoc {f : MState} {L : List LitObj} {x : LitObj}
    (hlive : f.live = L ++ [x]) :
    liveIds f = L.map (fun l => l.id) ++ [x.id] := by
  unfold liveIds
  rw [hlive]
  simp

/-- The combined effect of the attach-then-assign-payload sequence every
from-string setter performs on success. -/
theorem attach_payload_post {t : MState} (o : Owner) (k : LKind) (v : LVal) (nm : String)
    (hInv : LitInv t) (href : refOf t o = none) :
    LitInv (setName (setValue (attachFresh t o k).2 (attachFresh t o k).1 v)
      (attachFresh t o k).1 nm) ∧
    liveIds (setName (setValue (attachFresh t o k).2 (attachFresh t o k).1 v)
      (attachFresh t o k).1 nm) = liveIds t ++ [t.nextId] ∧
    refOf (setName (setValue (attachFresh t o k).2 (attachFresh t o k).1 v)
      (attachFresh t o k).1 nm) o = some t.nextId ∧
    (∀ o2, o2 ≠ o → refOf (setName (setValue (attachFresh t o k).2 (attachFresh t o k).1 v)
      (attachFresh t o k).1 nm) o2 = refOf t o2) ∧
    getLit (setName (setValue (attachFresh t o k).2 (attachFresh t o k).1 v)
      (attachFresh t o k).1 nm) t.nextId = some ⟨t.nextId, k, some v, some nm, some o⟩ := by
  obtain ⟨hfst, hlive0, hnext, -, hself, hother⟩ := attachFresh_spec o k hInv
  have hlive := attachFresh_payload_live hInv o k v nm
  refine ⟨?_, ?_, ?_, ?_, ?_⟩
  · exact litInv_setName (litInv_setValue (litInv_attachFresh o k hInv href) _ _) _ _
  · rw [liveIds_of_live_snoc hlive]
    rfl
  · rw [refOf_setName, refOf_setValue, hself]
  · intro o2 hne
    rw [refOf_setName, refOf_setValue, hother o2 hne]
  · exact getLit_of_live_snoc hlive fun l hl => Nat.ne_of_lt (hInv.bounded l hl)

/-- The state a numeric from-string setter leaves behind when the int
conversion raises: the fresh literal is already linked and owned but its
value and name were never assigned. -/
theorem attach_raise_post {t : MState} (o : Owner) (k : LKind)
    (hInv : LitInv t) (href : refOf t o = none) :
    LitInv (attachFresh t o k).2 ∧
    liveIds (attachFresh t o k).2 = liveIds t ++ [t.nextId] ∧
    refOf (attachFresh t o k).2 o = some t.nextId ∧
    getLit (attachFresh t o k).2 t.nextId = some ⟨t.nextId, k, none, none, some o⟩ := by
  obtain ⟨hfst, hlive, hnext, -, hself, hother⟩ := attachFresh_spec o k hInv
  refine ⟨litInv_attachFresh o k hInv href, ?_, hself, ?_⟩
  · rw [liveIds_of_live_snoc hlive]
    rfl
  · exact getLit_of_live_snoc hlive fun l hl => Nat.ne_of_lt (hInv.bounded l hl)

theorem litInv_mstate0 : LitInv mstate0 := by
  refine ⟨?_, ?_, ?_, ?_⟩
  · simp [liveIds, mstate0]
  · intro l hl
    simp [mstate0] at hl
  · intro l hl
    simp [mstate0] at hl
  · intro o i h
    cases o <;> simp [mstate0, refOf] at h

theorem old_ref_out_of_unlinkCurrent {s : MState} (o : Owner) {i : Nat}
    (href : refOf s o = some i) : i ∉ liveIds (unlinkCurrent s o) := by
  unfold unlinkCurrent
  rw [href]
  exact not_mem_liveIds_unlink s i

theorem setter_out_helper {s : MState} (hInv : LitInv s) (o : Owner) {f : MState}
    (hB : liveIds f = liveIds (unlinkCurrent s o) ++ [s.nextId]) :
    ∀ i, refOf s o = some i → i ∉ liveIds f := by
  intro i hi hmem
  rw [hB] at hmem
  rcases List.mem_append.mp hmem with h1 | h2
  · exact old_ref_out_of_unlinkCurrent o hi h1
  · exact absurd (List.mem_singleton.mp h2) (Nat.ne_of_lt (hInv.refBounded o i hi))

theorem set_slot_value_eq (s : MState) (v : String) :
    set_slot_value s v =
      setValue (attachFresh (unlinkCurrent s .oSlot) .oSlot .str).2
        (attachFresh (unlinkCurrent s .oSlot) .oSlot .str).1 (.vStr v) := rfl

theorem set_property_lower_value_from_string_none (s : MState) :
    set_property_lower_value_from_string s none = (false, unlinkCurrent s .oLower) := rfl

theorem set_property_lower_value_from_string_some (s : MState) (v : String) :
    set_property_lower_value_from_string s (some v) =
      match pyInt v with
      | none => (true, (attachFresh (unlinkCurrent s .oLower) .oLower .integer).2)
      | some n => (false,
          setName (setValue (attachFresh (unlinkCurrent s .oLower) .oLower .integer).2
            (attachFresh (unlinkCurrent s .oLower) .oLower .integer).1 (.vInt n))
            (attachFresh (unlinkCurrent s .oLower) .oLower .integer).1 v) := rfl

theorem set_multiplicity_lower_value_from_string_none (s : MState) :
    set_multiplicity_lower_value_from_string s none =
      (false, unlinkCurrent s .oMultLower) := rfl

theorem set_multiplicity_lower_value_from_string_some (s : MState) (v : String) :
    set_multiplicity_lower_value_from_string s (some v) =
      match pyInt v with
      | none => (true, (attachFresh (unlinkCurrent s .oMultLower) .oMultLower .integer).2)
      | some n => (false,
          setName (setValue (attachFresh (unlinkCurrent s .oMultLower) .oMultLower .integer).2
            (attachFresh (unlinkCurrent s .oMultLower) .oMultLower .integer).1 (.vInt n))
            (attachFresh (unlinkCurrent s .oMultLower) .oMultLower .integer).1 v) := rfl

theorem set_property_upper_value_from_string_none (s : MState) :
    set_property_upper_value_from_string s none = (false, unlinkCurrent s .oUpper) := rfl

theorem set_property_upper_value_from_string_some (s : MState) (v : String) :
    set_property_upper_value_from_string s (some v) =
      if (v == "*") = true then
        (false,
          setName (setValue (attachFresh (unlinkCurrent s .oUpper) .oUpper .unlimitedNatural).2
            (attachFresh (unlinkCurrent s .oUpper) .oUpper .unlimitedNatural).1 (.vUN .inf))
            (attachFresh (unlinkCurrent s .oUpper) .oUpper .unlimitedNatural).1 v)
      else
        match pyInt v with
        | none => (true, (attachFresh (unlinkCurrent s .oUpper) .oUpper .unlimitedNatural).2)
        | some n => (false,
            setName (setValue (attachFresh (unlinkCurrent s .oUpper) .oUpper .unlimitedNatural).2
              (attachFresh (unlinkCurrent s .oUpper) .oUpper .unlimitedNatural).1
              (.vUN (.fin n)))
              (attachFresh (unlinkCurrent s .oUpper) .oUpper .unlimitedNatural).1 v) := rfl

theorem set_property_default_value_from_string_none (s : MState) :
    set_property_default_value_from_string s none = (false, unlinkCurrent s .oDefault) := rfl

theorem set_property_default_value_from_string_some (s : MState) (v : String) :
    set_property_default_value_from_string s (some v) =
      if (create_value_specification_for_type_and_value (unlinkCurrent s .oDefault)
          (unlinkCurrent s .oDefault).typeValue (some v)).1 = true then
        (true, (create_value_specification_for_type_and_value (unlinkCurrent s .oDefault)
          (unlinkCurrent s .oDefault).typeValue (some v)).2.2)
      else
        match (create_value_specification_for_type_and_value (unlinkCurrent s .oDefault)
            (unlinkCurrent s .oDefault).typeValue (some v)).2.1 with
        | some i => (false,
            setOwner (setRef (create_value_specification_for_type_and_value
                (unlinkCurrent s .oDefault) (unlinkCurrent s .oDefault).typeValue (some v)).2.2
              .oDefault (create_value_specification_for_type_and_value
                (unlinkCurrent s .oDefault) (unlinkCurrent s .oDefault).typeValue (some v)).2.1)
              i .oDefault)
        | none => (false,
            setRef (create_value_specification_for_type_and_value
                (unlinkCurrent s .oDefault) (unlinkCurrent s .oDefault).typeValue (some v)).2.2
              .oDefault (create_value_specification_for_type_and_value
                (unlinkCurrent s .oDefault) (unlinkCurrent s .oDefault).typeValue (some v)).2.1) :=
  rfl

/-- Claim C3: every embedded literal-value setter first unlinks the literal
currently attached to its owning feature -- the old literal is no longer in
the live pool afterwards -- and attaches at most one fresh literal, so from
any well-formed state the resulting state is again well formed and every
owning slot or feature has at most one attached literal value object.  (The
set_parameter_* setters and the remaining typed and multiplicity setters of
the source repeat exactly these code shapes on their own features.) -/
theorem C3_literal_setters_single_value (s : MState) (hInv : LitInv s) :
    (∀ v : String,
      LitInv (set_slot_value s v) ∧
      (∀ o, countOwned (set_slot_value s v) o ≤ 1) ∧
      (∀ i, refOf s .oSlot = some i → i ∉ liveIds (set_slot_value s v))) ∧
    (∀ v : Option String,
      LitInv (set_property_default_value_from_string s v).2 ∧
      (∀ o, countOwned (set_property_default_value_from_string s v).2 o ≤ 1) ∧
      (∀ i, refOf s .oDefault = some i →
        i ∉ liveIds (set_property_default_value_from_string s v).2)) ∧
    (∀ v : Option String,
      LitInv (set_property_lower_value_from_string s v).2 ∧
      (∀ o, countOwned (set_property_lower_value_from_string s v).2 o ≤ 1) ∧
      (∀ i, refOf s .oLower = some i →
        i ∉ liveIds (set_property_lower_value_from_string s v).2)) ∧
    (∀ v : Option String,
      LitInv (set_property_upper_value_from_string s v).2 ∧
      (∀ o, countOwned (set_property_upper_value_from_string s v).2 o ≤ 1) ∧
      (∀ i, refOf s .oUpper = some i →
        i ∉ liveIds (set_property_upper_value_from_string s v).2)) ∧
    (∀ v : Option String,
      LitInv (set_multiplicity_lower_value_from_string s v).2 ∧
      (∀ o, countOwned (set_multiplicity_lower_value_from_string s v).2 o ≤ 1) ∧
      (∀ i, refOf s .oMultLower = some i →
        i ∉ liveIds (set_multiplicity_lower_value_from_string s v).2)) := by
  refine ⟨?_, ?_, ?_, ?_, ?_⟩
  · -- set_slot_value
    intro v
    rw [set_slot_value_eq]
    obtain ⟨hfst, hlive, hnext, -, hself, hother⟩ :=
      attachFresh_spec .oSlot .str (litInv_unlinkCurrent hInv .oSlot)
    have hA : LitInv (setValue (attachFresh (unlinkCurrent s .oSlot) .oSlot .str).2
        (attachFresh (unlinkCurrent s .oSlot) .oSlot .str).1 (.vStr v)) :=
      litInv_setValue (litInv_attachFresh .oSlot .str (litInv_unlinkCurrent hInv .oSlot)
        (refOf_unlinkCurrent_self s .oSlot)) _ _
    have hB : liveIds (setValue (attachFresh (unlinkCurrent s .oSlot) .oSlot .str).2
        (attachFresh (unlinkCurrent s .oSlot) .oSlot .str).1 (.vStr v)) =
        liveIds (unlinkCurrent s .oSlot) ++ [s.nextId] := by
      rw [liveIds_setValue, liveIds_of_live_snoc hlive, nextId_unlinkCurrent]
      rfl
    exact ⟨hA, fun o => litInv_countOwned_le_one hA o, setter_out_helper hInv .oSlot hB⟩
  · -- set_property_default_value_from_string
    intro v
    cases v with
    | none =>
      rw [set_property_default_value_from_string_none]
      exact ⟨litInv_unlinkCurrent hInv .oDefault,
        fun o => litInv_countOwned_le_one (litInv_unlinkCurrent hInv .oDefault) o,
        fun i hi => old_ref_out_of_unlinkCurrent .oDefault hi⟩
    | some v =>
      rw [set_property_default_value_from_string_some]
      obtain ⟨hW, hrefs, hsome, hsub⟩ :=
        createVS_spec (unlinkCurrent s .oDefault).typeValue (some v)
          (litInv_unlinkCurrent hInv .oDefault)
      have hnone : refOf (create_value_specification_for_type_and_value
          (unlinkCurrent s .oDefault) (unlinkCurrent s .oDefault).typeValue (some v)).2.2
          .oDefault = none :=
        (hrefs .oDefault).trans (refOf_unlinkCurrent_self s .oDefault)
      have hout : ∀ i, refOf s .oDefault = some i →
          i ∉ liveIds (create_value_specification_for_type_and_value
            (unlinkCurrent s .oDefault) (unlinkCurrent s .oDefault).typeValue (some v)).2.2 := by
        intro i hi hmem
        rcases hsub i hmem with h1 | h2
        · exact old_ref_out_of_unlinkCurrent .oDefault hi h1
        · rw [nextId_unlinkCurrent] at h2
          exact absurd h2 (Nat.ne_of_lt (hInv.refBounded .oDefault i hi))
      by_cases hflag : (create_value_specification_for_type_and_value
          (unlinkCurrent s .oDefault) (unlinkCurrent s .oDefault).typeValue (some v)).1 = true
      · rw [if_pos hflag]
        exact ⟨hW, fun o => litInv_countOwned_le_one hW o, hout⟩
      · rw [if_neg hflag]
        cases hro : (create_value_specification_for_type_and_value
            (unlinkCurrent s .oDefault) (unlinkCurrent s .oDefault).typeValue (some v)).2.1 with
        | none =>
          have heq : setRef (create_value_specification_for_type_and_value
              (unlinkCurrent s .oDefault) (unlinkCurrent s .oDefault).typeValue (some v)).2.2
              .oDefault none = (create_value_specification_for_type_and_value
              (unlinkCurrent s .oDefault) (unlinkCurrent s .oDefault).typeValue (some v)).2.2 :=
            setRef_refOf_eq hnone
          rw [heq]
          exact ⟨hW, fun o => litInv_countOwned_le_one hW o, hout⟩
        | some j =>
          obtain ⟨hjid, hjnext⟩ := hsome j hro
          have hj : j < (create_value_specification_for_type_and_value
              (unlinkCurrent s .oDefault)
              (unlinkCurrent s .oDefault).typeValue (some v)).2.2.nextId := by
            rw [hjnext, hjid]
            exact Nat.lt_succ_self _
          have hAdopt := litInv_adopt .oDefault j hW hnone hj
          refine ⟨hAdopt, fun o => litInv_countOwned_le_one hAdopt o, ?_⟩
          intro i hi hmem
          rw [liveIds_setOwner, liveIds_setRef] at hmem
          exact hout i hi hmem
  · -- set_property_lower_value_from_string
    intro v
    cases v with
    | none =>
      rw [set_property_lower_value_from_string_none]
      exact ⟨litInv_unlinkCurrent hInv .oLower,
        fun o => litInv_countOwned_le_one (litInv_unlinkCurrent hInv .oLower) o,
        fun i hi => old_ref_out_of_unlinkCurrent .oLower hi⟩
    | some v =>
      rw [set_property_lower_value_from_string_some]
      cases hp : pyInt v with
      | none =>
        obtain ⟨hA, hB, -, -⟩ := attach_raise_post .oLower .integer
          (litInv_unlinkCurrent hInv .oLower) (refOf_unlinkCurrent_self s .oLower)
        rw [nextId_unlinkCurrent] at hB
        exact ⟨hA, fun o => litInv_countOwned_le_one hA o, setter_out_helper hInv .oLower hB⟩
      | some n =>
        obtain ⟨hA, hB, -, -, -⟩ := attach_payload_post .oLower .integer (.vInt n) v
          (litInv_unlinkCurrent hInv .oLower) (refOf_unlinkCurrent_self s .oLower)
        rw [nextId_unlinkCurrent] at hB
        exact ⟨hA, fun o => litInv_countOwned_le_one hA o, setter_out_helper hInv .oLower hB⟩
  · -- set_property_upper_value_from_string
    intro v
    cases v with
    | none =>
      rw [set_property_upper_value_from_string_none]
      exact ⟨litInv_unlinkCurrent hInv .oUpper,
        fun o => litInv_countOwned_le_one (litInv_unlinkCurrent hInv .oUpper) o,
        fun i hi => old_ref_out_of_unlinkCurrent .oUpper hi⟩
    | some v =>
      rw [set_property_upper_value_from_string_some]
      by_cases hstar : (v == "*") = true
      · rw [if_pos hstar]
        obtain ⟨hA, hB, -, -, -⟩ := attach_payload_post .oUpper .unlimitedNatural (.vUN .inf) v
          (litInv_unlinkCurrent hInv .oUpper) (refOf_unlinkCurrent_self s .oUpper)
        rw [nextId_unlinkCurrent] at hB
        exact ⟨hA, fun o => litInv_countOwned_le_one hA o, setter_out_helper hInv .oUpper hB⟩
      · rw [if_neg hstar]
        cases hp : pyInt v with
        | none =>
          obtain ⟨hA, hB, -, -⟩ := attach_raise_post .oUpper .unlimitedNatural
            (litInv_unlinkCurrent hInv .oUpper) (refOf_unlinkCurrent_self s .oUpper)
          rw [nextId_unlinkCurrent] at hB
          exact ⟨hA, fun o => litInv_countOwned_le_one hA o, setter_out_helper hInv .oUpper hB⟩
        | some n =>
          obtain ⟨hA, hB, -, -, -⟩ := attach_payload_post .oUpper .unlimitedNatural
            (.vUN (.fin n)) v
            (litInv_unlinkCurrent hInv .oUpper) (refOf_unlinkCurrent_self s .oUpper)
          rw [nextId_unlinkCurrent] at hB
          exact ⟨hA, fun o => litInv_countOwned_le_one hA o, setter_out_helper hInv .oUpper hB⟩
  · -- set_multiplicity_lower_value_from_string
    intro v
    cases v with
    | none =>
      rw [set_multiplicity_lower_value_from_string_none]
      exact ⟨litInv_unlinkCurrent hInv .oMultLower,
        fun o => litInv_countOwned_le_one (litInv_unlinkCurrent hInv .oMultLower) o,
        fun i hi => old_ref_out_of_unlinkCurrent .oMultLower hi⟩
    | some v =>
      rw [set_multiplicity_lower_value_from_string_some]
      cases hp : pyInt v with
      | none =>
        obtain ⟨hA, hB, -, -⟩ := attach_raise_post .oMultLower .integer
          (litInv_unlinkCurrent hInv .oMultLower) (refOf_unlinkCurrent_self s .oMultLower)
        rw [nextId_unlinkCurrent] at hB
        exact ⟨hA, fun o => litInv_countOwned_le_one hA o, setter_out_helper hInv .oMultLower hB⟩
      | some n =>
        obtain ⟨hA, hB, -, -, -⟩ := attach_payload_post .oMultLower .integer (.vInt n) v
          (litInv_unlinkCurrent hInv .oMultLower) (refOf_unlinkCurrent_self s .oMultLower)
        rw [nextId_unlinkCurrent] at hB
        exact ⟨hA, fun o => litInv_countOwned_le_one hA o, setter_out_helper hInv .oMultLower hB⟩

/-- Witness for C3 on a state with one attached slot literal. -/
theorem C3_literal_setters_single_value_witness :
    LitInv (set_slot_value mstate0 "a") ∧
    (LitInv (set_slot_value (set_slot_value mstate0 "a") "b") ∧
     countOwned (set_slot_value (set_slot_value mstate0 "a") "b") .oSlot ≤ 1 ∧
     (0 ∉ liveIds (set_slot_value (set_slot_value mstate0 "a") "b"))) := by
  have h0 : LitInv (set_slot_value mstate0 "a") :=
    (C3_literal_setters_single_value mstate0 litInv_mstate0).1 "a" |>.1
  have h1 := (C3_literal_setters_single_value (set_slot_value mstate0 "a") h0).1 "b"
  exact ⟨h0, h1.1, h1.2.1 .oSlot, h1.2.2 0 (by decide)⟩

/-- A minimal model slice with a single literal element of the given
metaclass and payload attached to the given owning feature. -/
def litAt (o : Owner) (k : LKind) (v : Option LVal) : MState :=
  setRef ⟨1, [⟨0, k, v, none, some o⟩], none, none, none, none, none, none, none⟩ o (some 0)

/-- Claim C9 (counterexample): get_slot_value applied to a slot whose
attached literal is a LiteralBoolean with value True returns None, not the
word true or false -- only the default-value getters dispatch on every
literal kind. -/
theorem C9_counterexample_slot_boolean :
    get_slot_value (litAt .oSlot .boolean (some (.vBool true))) ≠ some "true" ∧
    get_slot_value (litAt .oSlot .boolean (some (.vBool true))) ≠ some "false" ∧
    get_slot_value (litAt .oSlot .boolean (some (.vBool true))) = none := by
  refine ⟨by decide, by decide, rfl⟩

/-- Claim C9 as amended: the default-value getters (through
get_literal_value_as_string) dispatch on the attached literal kind exactly
as described -- boolean to true/false, integer to its decimal string,
unlimited natural to star or its decimal string, string to its raw value,
unrecognized kind to absent; get_slot_value recognizes only string literals,
the lower-value getters only integer literals and the upper-value getters
only unlimited-natural literals, each yielding an absent result for every
other kind. -/
theorem C9_getter_dispatch_amended :
    ((∀ b : Bool, get_property_default_value_as_string
        (litAt .oDefault .boolean (some (.vBool b))) = some (if b then "true" else "false")) ∧
     (∀ n : Int, get_property_default_value_as_string
        (litAt .oDefault .integer (some (.vInt n))) = some (toString n)) ∧
     (get_property_default_value_as_string
        (litAt .oDefault .unlimitedNatural (some (.vUN .inf))) = some "*") ∧
     (∀ n : Int, get_property_default_value_as_string
        (litAt .oDefault .unlimitedNatural (some (.vUN (.fin n)))) = some (toString n)) ∧
     (∀ t : String, get_property_default_value_as_string
        (litAt .oDefault .str (some (.vStr t))) = some t) ∧
     (get_property_default_value_as_string (litAt .oDefault .other none) = none)) ∧
    ((∀ t : String, get_slot_value (litAt .oSlot .str (some (.vStr t))) = some t) ∧
     (∀ b : Bool, get_slot_value (litAt .oSlot .boolean (some (.vBool b))) = none) ∧
     (∀ n : Int, get_slot_value (litAt .oSlot .integer (some (.vInt n))) = none) ∧
     (get_slot_value (litAt .oSlot .unlimitedNatural (some (.vUN .inf))) = none) ∧
     (get_slot_value (litAt .oSlot .other none) = none)) ∧
    ((∀ n : Int, get_property_lower_value_as_string
        (litAt .oLower .integer (some (.vInt n))) = some (toString n)) ∧
     (∀ b : Bool, get_property_lower_value_as_string
        (litAt .oLower .boolean (some (.vBool b))) = none) ∧
     (∀ t : String, get_property_lower_value_as_string
        (litAt .oLower .str (some (.vStr t))) = none) ∧
     (get_property_lower_value_as_string
        (litAt .oLower .unlimitedNatural (some (.vUN .inf))) = none) ∧
     (get_property_lower_value_as_string (litAt .oLower .other none) = none)) ∧
    ((get_property_upper_value_as_string
        (litAt .oUpper .unlimitedNatural (some (.vUN .inf))) = some "*") ∧
     (∀ n : Int, get_property_upper_value_as_string
        (litAt .oUpper .unlimitedNatural (some (.vUN (.fin n)))) = some (toString n)) ∧
     (∀ n : Int, get_property_upper_value_as_string
        (litAt .oUpper .integer (some (.vInt n))) = none) ∧
     (∀ b : Bool, get_property_upper_value_as_string
        (litAt .oUpper .boolean (some (.vBool b))) = none) ∧
     (get_property_upper_value_as_string (litAt .oUpper .other none) = none)) := by
  refine ⟨⟨?_, ?_, rfl, ?_, ?_, rfl⟩, ⟨?_, ?_, ?_, rfl, rfl⟩, ⟨?_, ?_, ?_, rfl, rfl⟩,
    ⟨rfl, ?_, ?_, ?_, rfl⟩⟩
  · intro b
    cases b <;> rfl
  · intro n
    rfl
  · intro n
    rfl
  · intro t
    rfl
  · intro t
    rfl
  · intro b
    rfl
  · intro n
    rfl
  · intro n
    rfl
  · intro b
    rfl
  · intro t
    rfl
  · intro n
    rfl
  · intro n
    rfl
  · intro b
    rfl

/-- Claim C4 (counterexample): the numeral 01 is accepted by
set_property_lower_value_from_string (no error is raised) but reads back as
the canonical numeral 1, so the set-then-get round trip does not return a
string equal to every supported input. -/
theorem C4_counterexample_leading_zero :
    (set_property_lower_value_from_string mstate0 (some "01")).1 = false ∧
    get_property_lower_value_as_string
      (set_property_lower_value_from_string mstate0 (some "01")).2 = some "1" ∧
    get_property_lower_value_as_string
      (set_property_lower_value_from_string mstate0 (some "01")).2 ≠ some "01" := by
  refine ⟨by decide, by decide, by decide⟩

theorem createVS_some_eq (u : MState) (ty : Option String) (v : String) :
    create_value_specification_for_type_and_value u ty (some v) =
      (if (inferTypeStr ty v == "bool" || inferTypeStr ty v == "Boolean") = true then
        (if (v == "true") = true then
          (false, some (createLit u .boolean).1,
            setName (setValue (createLit u .boolean).2 (createLit u .boolean).1 (.vBool true))
              (createLit u .boolean).1 "true")
        else
          (false, some (createLit u .boolean).1,
            setName (setValue (createLit u .boolean).2 (createLit u .boolean).1 (.vBool false))
              (createLit u .boolean).1 "false"))
      else if (inferTypeStr ty v == "str" || inferTypeStr ty v == "String") = true then
        (false, some (createLit u .str).1,
          setName (setValue (createLit u .str).2 (createLit u .str).1 (.vStr v))
            (createLit u .str).1 (stripQuotes v))
      else if (inferTypeStr ty v == "int" || inferTypeStr ty v == "Integer") = true then
        (match pyInt v with
        | none => (true, none, (createLit u .integer).2)
        | some n =>
          (false, some (createLit u .integer).1,
            setName (setValue (createLit u .integer).2 (createLit u .integer).1 (.vInt n))
              (createLit u .integer).1 v))
      else if (inferTypeStr ty v == "UnlimitedNatural") = true then
        (if (v == "*") = true then
          (false, some (createLit u .unlimitedNatural).1,
            setName (setValue (createLit u .unlimitedNatural).2
              (createLit u .unlimitedNatural).1 (.vUN .inf))
              (createLit u .unlimitedNatural).1 "*")
        else
          match pyInt v with
          | none => (true, none, (createLit u .unlimitedNatural).2)
          | some n =>
            (false, some (createLit u .unlimitedNatural).1,
              setName (setValue (createLit u .unlimitedNatural).2
                (createLit u .unlimitedNatural).1 (.vUN (.fin n)))
                (createLit u .unlimitedNatural).1 v))
      else (false, none, u)) := rfl

theorem inferTypeStr_str (v : String) (h1 : (v == "true") = false)
    (h2 : (v == "false") = false) (h3 : pyIsNumeric v = false) :
    inferTypeStr none v = "str" := by
  unfold inferTypeStr
  rw [h1, h2, h3]
  rfl

/-- The string-typed leaf of create_value_specification_for_type_and_value
reached when the type is inferred from a non-boolean non-numeric string. -/
theorem createVS_infer_str (u : MState) (v : String) (h1 : (v == "true") = false)
    (h2 : (v == "false") = false) (h3 : pyIsNumeric v = false) :
    create_value_specification_for_type_and_value u none (some v) =
      (false, some u.nextId,
        setName (setValue (createLit u .str).2 (createLit u .str).1 (.vStr v))
          (createLit u .str).1 (stripQuotes v)) := by
  rw [createVS_some_eq, inferTypeStr_str v h1 h2 h3]
  rw [if_neg (show ¬((("str" : String) == "bool" || ("str" : String) == "Boolean") = true)
    from by decide)]
  rw [if_pos (show ((("str" : String) == "str" || ("str" : String) == "String") = true)
    from by decide)]
  rfl

/-- The pool after create + payload + adopt, the shape the default-value
setter produces. -/
theorem adopt_payload_live {u : MState} (hInv : LitInv u) (o : Owner) (k : LKind)
    (v : LVal) (nm : String) :
    (setOwner (setRef (setName (setValue (createLit u k).2 (createLit u k).1 v)
        (createLit u k).1 nm) o (some u.nextId)) u.nextId o).live =
      u.live ++ [⟨u.nextId, k, some v, some nm, some o⟩] := by
  have hY := createLit_payload_live hInv k v nm
  show ((setRef (setName (setValue (createLit u k).2 (createLit u k).1 v)
      (createLit u k).1 nm) o (some u.nextId)).live.map _) = _
  rw [live_setRef, hY,
    map_snoc_congr _ _ _ fun a ha => by simp [Nat.ne_of_lt (hInv.bounded a ha)]]
  simp

/-- Claim C4 as amended: the set-from-string / get-as-string round trip
returns the input for the star upper value, for canonical decimal numerals
(strings equal to the canonical rendering of the integer they parse to, such
as the lower value 3) and for a default value with inferred type from the
word true, which produces a boolean literal reading back as true; it also
holds for default values inferred as strings.  For accepted but
non-canonical numerals (a sign, whitespace, leading zeros or underscores)
the value reads back canonicalized instead. -/
theorem C4_roundtrip_amended :
    (get_property_upper_value_as_string
        (set_property_upper_value_from_string mstate0 (some "*")).2 = some "*") ∧
    (get_property_lower_value_as_string
        (set_property_lower_value_from_string mstate0 (some "3")).2 = some "3") ∧
    (get_property_default_value_as_string
        (set_property_default_value_from_string mstate0 (some "true")).2 = some "true") ∧
    (∀ (s : MState) (v : String) (n : Int), LitInv s → pyInt v = some n → toString n = v →
      get_property_lower_value_as_string
        (set_property_lower_value_from_string s (some v)).2 = some v ∧
      get_property_upper_value_as_string
        (set_property_upper_value_from_string s (some v)).2 = some v) ∧
    (∀ (s : MState) (v : String), LitInv s → s.typeValue = none →
      (v == "true") = false → (v == "false") = false → pyIsNumeric v = false →
      get_property_default_value_as_string
        (set_property_default_value_from_string s (some v)).2 = some v) := by
  refine ⟨by decide, by decide, by decide, ?_, ?_⟩
  · intro s v n hInv hp hv
    constructor
    · rw [set_property_lower_value_from_string_some, hp]
      obtain ⟨-, -, hC, -, hE⟩ := attach_payload_post .oLower .integer (.vInt n) v
        (litInv_unlinkCurrent hInv .oLower) (refOf_unlinkCurrent_self s .oLower)
      simp only [refOf] at hC
      simp only [get_property_lower_value_as_string, hC, hE]
      simp [pyStrOfLVal, hv]
    · have hvstar : (v == "*") = false := by
        cases hb : (v == "*") with
        | true =>
          have hveq : v = "*" := eq_of_beq hb
          rw [hveq] at hp
          rw [(by decide : pyInt "*" = none)] at hp
          exact Option.noConfusion hp
        | false => rfl
      rw [set_property_upper_value_from_string_some, if_neg (by simp [hvstar]), hp]
      obtain ⟨-, -, hC, -, hE⟩ := attach_payload_post .oUpper .unlimitedNatural
        (.vUN (.fin n)) v
        (litInv_unlinkCurrent hInv .oUpper) (refOf_unlinkCurrent_self s .oUpper)
      simp only [refOf] at hC
      simp only [get_property_upper_value_as_string, hC, hE]
      simp [hv]
  · intro s v hInv hty h1 h2 h3
    rw [set_property_default_value_from_string_some]
    have htys1 : (unlinkCurrent s .oDefault).typeValue = none :=
      (typeValue_unlinkCurrent s .oDefault).trans hty
    rw [htys1, createVS_infer_str (unlinkCurrent s .oDefault) v h1 h2 h3]
    show get_property_default_value_as_string
        (setOwner (setRef (setName (setValue (createLit (unlinkCurrent s .oDefault) .str).2
            (createLit (unlinkCurrent s .oDefault) .str).1 (.vStr v))
            (createLit (unlinkCurrent s .oDefault) .str).1 (stripQuotes v))
          .oDefault (some (unlinkCurrent s .oDefault).nextId))
          (unlinkCurrent s .oDefault).nextId .oDefault) = some v
    have hInvU := litInv_unlinkCurrent hInv .oDefault
    have hlive := adopt_payload_live hInvU .oDefault .str (.vStr v) (stripQuotes v)
    have hgl : getLit (setOwner (setRef (setName (setValue
          (createLit (unlinkCurrent s .oDefault) .str).2
          (createLit (unlinkCurrent s .oDefault) .str).1 (.vStr v))
          (createLit (unlinkCurrent s .oDefault) .str).1 (stripQuotes v))
          .oDefault (some (unlinkCurrent s .oDefault).nextId))
          (unlinkCurrent s .oDefault).nextId .oDefault) (unlinkCurrent s .oDefault).nextId =
        some ⟨(unlinkCurrent s .oDefault).nextId, .str, some (.vStr v),
          some (stripQuotes v), some .oDefault⟩ :=
      getLit_of_live_snoc hlive fun l hl => Nat.ne_of_lt (hInvU.bounded l hl)
    have href : (setOwner (setRef (setName (setValue
          (createLit (unlinkCurrent s .oDefault) .str).2
          (createLit (unlinkCurrent s .oDefault) .str).1 (.vStr v))
          (createLit (unlinkCurrent s .oDefault) .str).1 (stripQuotes v))
          .oDefault (some (unlinkCurrent s .oDefault).nextId))
          (unlinkCurrent s .oDefault).nextId .oDefault).defaultRef =
        some (unlinkCurrent s .oDefault).nextId := rfl
    simp only [get_property_default_value_as_string, href, hgl, get_literal_value_as_string]
    rfl

/-- Witness for the amended C4 at concrete inputs. -/
theorem C4_roundtrip_amended_witness :
    (LitInv mstate0 ∧ pyInt "7" = some 7 ∧ toString (7 : Int) = "7" ∧
     mstate0.typeValue = none ∧ ("hello" == "true") = false ∧
     ("hello" == "false") = false ∧ pyIsNumeric "hello" = false) ∧
    (get_property_lower_value_as_string
        (set_property_lower_value_from_string mstate0 (some "7")).2 = some "7" ∧
     get_property_upper_value_as_string
        (set_property_upper_value_from_string mstate0 (some "7")).2 = some "7" ∧
     get_property_default_value_as_string
        (set_property_default_value_from_string mstate0 (some "hello")).2 = some "hello") :=
  ⟨⟨litInv_mstate0, by decide, by decide, rfl, by decide, by decide, by decide⟩,
   (C4_roundtrip_amended.2.2.2.1 mstate0 "7" 7 litInv_mstate0 (by decide) (by decide)).1,
   (C4_roundtrip_amended.2.2.2.1 mstate0 "7" 7 litInv_mstate0 (by decide) (by decide)).2,
   C4_roundtrip_amended.2.2.2.2 mstate0 "hello" litInv_mstate0 rfl (by decide) (by decide)
     (by decide)⟩

/-- Claim C10 (counterexample): after a lower value 5 is attached, calling
set_property_lower_value_from_string with the unparsable string x raises,
but the owning feature is not left with no attached value -- the freshly
created literal (linked before the int conversion) is still attached. -/
theorem C10_counterexample_error_leaves_fresh_attached :
    (set_property_lower_value_from_string
      (set_property_lower_value_from_string mstate0 (some "5")).2 (some "x")).1 = true ∧
    refOf (set_property_lower_value_from_string
      (set_property_lower_value_from_string mstate0 (some "5")).2 (some "x")).2
      .oLower ≠ none := by
  refine ⟨by decide, by decide⟩

/-- Claim C10 as amended: on a non-None string that does not parse as a
decimal integer (and, for upper values, is not the star string), the numeric
from-string setters first unlink the existing literal -- it is gone from the
pool and the previous value is lost -- and then raise ValueError out of the
int conversion; the operation is not atomic, and the owning feature is left
with a freshly created literal attached whose value and name were never
assigned (not with no attached value). -/
theorem C10_numeric_setter_error_behavior (s : MState) (v : String) (hInv : LitInv s)
    (hbad : pyInt v = none) :
    ((set_property_lower_value_from_string s (some v)).1 = true ∧
     (∀ i, refOf s .oLower = some i →
        i ∉ liveIds (set_property_lower_value_from_string s (some v)).2) ∧
     refOf (set_property_lower_value_from_string s (some v)).2 .oLower = some s.nextId ∧
     getLit (set_property_lower_value_from_string s (some v)).2 s.nextId =
       some ⟨s.nextId, .integer, none, none, some .oLower⟩) ∧
    ((set_multiplicity_lower_value_from_string s (some v)).1 = true ∧
     (∀ i, refOf s .oMultLower = some i →
        i ∉ liveIds (set_multiplicity_lower_value_from_string s (some v)).2) ∧
     refOf (set_multiplicity_lower_value_from_string s (some v)).2 .oMultLower =
       some s.nextId ∧
     getLit (set_multiplicity_lower_value_from_string s (some v)).2 s.nextId =
       some ⟨s.nextId, .integer, none, none, some .oMultLower⟩) ∧
    ((v == "*") = false →
     (set_property_upper_value_from_string s (some v)).1 = true ∧
     (∀ i, refOf s .oUpper = some i →
        i ∉ liveIds (set_property_upper_value_from_string s (some v)).2) ∧
     refOf (set_property_upper_value_from_string s (some v)).2 .oUpper = some s.nextId ∧
     getLit (set_property_upper_value_from_string s (some v)).2 s.nextId =
       some ⟨s.nextId, .unlimitedNatural, none, none, some .oUpper⟩) := by
  refine ⟨?_, ?_, ?_⟩
  · rw [set_property_lower_value_from_string_some, hbad]
    obtain ⟨hA, hB, href, hgl⟩ := attach_raise_post .oLower .integer
      (litInv_unlinkCurrent hInv .oLower) (refOf_unlinkCurrent_self s .oLower)
    rw [nextId_unlinkCurrent] at hB href hgl
    exact ⟨rfl, setter_out_helper hInv .oLower hB, href, hgl⟩
  · rw [set_multiplicity_lower_value_from_string_some, hbad]
    obtain ⟨hA, hB, href, hgl⟩ := attach_raise_post .oMultLower .integer
      (litInv_unlinkCurrent hInv .oMultLower) (refOf_unlinkCurrent_self s .oMultLower)
    rw [nextId_unlinkCurrent] at hB href hgl
    exact ⟨rfl, setter_out_helper hInv .oMultLower hB, href, hgl⟩
  · intro hstar
    rw [set_property_upper_value_from_string_some, if_neg (by simp [hstar]), hbad]
    obtain ⟨hA, hB, href, hgl⟩ := attach_raise_post .oUpper .unlimitedNatural
      (litInv_unlinkCurrent hInv .oUpper) (refOf_unlinkCurrent_self s .oUpper)
    rw [nextId_unlinkCurrent] at hB href hgl
    exact ⟨rfl, setter_out_helper hInv .oUpper hB, href, hgl⟩

/-- Witness for the amended C10 at a concrete input. -/
theorem C10_numeric_setter_error_behavior_witness :
    (LitInv mstate0 ∧ pyInt "x" = none ∧ ("x" == "*") = false) ∧
    ((set_property_lower_value_from_string mstate0 (some "x")).1 = true ∧
     refOf (set_property_lower_value_from_string mstate0 (some "x")).2 .oLower = some 0 ∧
     (set_property_upper_value_from_string mstate0 (some "x")).1 = true) :=
  ⟨⟨litInv_mstate0, by decide, by decide⟩,
   (C10_numeric_setter_error_behavior mstate0 "x" litInv_mstate0 (by decide)).1.1,
   (C10_numeric_setter_error_behavior mstate0 "x" litInv_mstate0 (by decide)).1.2.2.1,
   ((C10_numeric_setter_error_behavior mstate0 "x" litInv_mstate0 (by decide)).2.2
     (by decide)).1⟩
